import Mathlib

/-
  Shallow embedding of src/collabtasks_project/collabtasks/models.py.

  The source file declares a Django relational schema.  We model the
  database state as one list of records per table, and the standard
  ORM operations (create / update / delete) with the semantics that the
  declarations prescribe for them:
    - `on_delete=models.CASCADE`  : deleting a parent removes the child
      (Django's delete collector gathers the transitive cascade set first,
      then applies `SET_NULL` field updates only to surviving rows);
    - `on_delete=models.SET_NULL` : deleting the referenced row nulls the
      foreign key of surviving rows without rewriting their timestamps
      (the collector uses a bulk update that bypasses `auto_now`);
    - `choices=[...]`             : validation rejects any value outside the
      enumerated codes with an invalid-choice error (Django `full_clean`
      checks field choices before uniqueness);
    - `unique=True, null=True`    : uniqueness is enforced only between
      present (non-null) values;
    - `auto_now_add` / `auto_now` : the storage layer stamps `created_at`
      at insert and `updated_at` at every write; caller-supplied values
      for these two fields are ignored (they are absent from the field
      structures below);
    - `ForeignKey`                : a write naming a non-existent parent is
      rejected (database foreign-key constraint).
  `User` extends `django.contrib.auth.models.AbstractUser`, which adds a
  required, globally unique `username` character field.
  Primary keys auto-increment (`nextId`); the clock is an explicit `now`
  argument; dates and datetimes are modelled as natural numbers.
-/

namespace CollabTasks

/-- Errors surfaced by a rejected write, mirroring the error taxonomy the
schema induces: uniqueness violation, invalid choice, missing parent. -/
inductive DBError where
  | uniqueViolation : DBError
  | invalidChoice : DBError
  | fkNotFound : DBError
deriving DecidableEq

/-- A stored row: primary key, the declared columns, and the two
storage-managed timestamps (`auto_now_add` / `auto_now`). -/
structure Rec (α : Type) where
  id : Nat
  fields : α
  created_at : Nat
  updated_at : Nat
deriving DecidableEq

/-- Insert-time stamping: `auto_now_add` and `auto_now` both write the
current time at insert, whatever the caller supplied. -/
def saveNew (now i : Nat) (a : α) : Rec α :=
  { id := i, fields := a, created_at := now, updated_at := now }

/-- Update-time stamping: `auto_now` rewrites `updated_at` on every save,
`auto_now_add` keeps the insert-time value; the primary key is kept. -/
def saveUpdate (now : Nat) (a : α) (r : Rec α) : Rec α :=
  { id := r.id, fields := a, created_at := r.created_at, updated_at := now }

/-- Saving an existing row: the row with the given primary key gets the new
column values and a fresh `updated_at`; every other row is untouched. -/
def updateTable (i now : Nat) (a : α) (tbl : List (Rec α)) : List (Rec α) :=
  tbl.map (fun r => if r.id = i then saveUpdate now a r else r)

/-- Whether the table holds a row with the given primary key. -/
def existsId (tbl : List (Rec α)) (i : Nat) : Bool :=
  tbl.any (fun r => r.id == i)

/- Field structures: exactly the declared columns of models.py, minus the
two timestamp columns (held by `Rec`) and the auto primary key.
`null=True` columns are `Option`; `blank=True` text columns without
`null=True` are plain strings (empty string when omitted). -/

/-- Columns of `User` (models.py lines 9-29): `username` from
`AbstractUser`, then `student_id`, `role`, `status`, `email`, `notes`.
The `rooms_access` many-to-many lives in its own join table. -/
structure UserFields where
  username : String
  student_id : Option String
  role : String
  status : String
  email : Option String
  notes : Option String
deriving DecidableEq

/-- Columns of `TaskList` (models.py lines 32-39). -/
structure TaskListFields where
  name : String
  user : Nat
deriving DecidableEq

/-- Columns of `Task` (models.py lines 42-57). -/
structure TaskFields where
  description : String
  completed : Bool
  due_date : Option Nat
  task_list : Nat
  recurrence_type : String
  assigned_to : Option Nat
deriving DecidableEq

/-- Columns of `Room` (models.py lines 60-71). -/
structure RoomFields where
  name : String
  floor : Int
  persistent_note : String
  usual_configuration : String
  requested_infrastructure : String
  last_contact_attempt : Option Nat
deriving DecidableEq

/-- Columns of `RoomAssignment` (models.py lines 74-82). -/
structure RoomAssignmentFields where
  room : Nat
  user : Nat
  semester : String
deriving DecidableEq

/-- Columns of `RoomCheck` (models.py lines 85-96). -/
structure RoomCheckFields where
  room : Nat
  task : Nat
  completed : Bool
  room_issue : Bool
  note : String
  student_staff : Nat
deriving DecidableEq

/-- Columns of `RoomCheckImage` (models.py lines 99-106). -/
structure RoomCheckImageFields where
  room_check : Nat
  image_url : String
deriving DecidableEq

/-- Columns of `ContactAttempt` (models.py lines 109-119). -/
structure ContactAttemptFields where
  room : Nat
  date : Nat
  recipients : List String
  email_content : String
  notes : String
deriving DecidableEq

/-- Columns of `RoomImage` (models.py lines 122-134). -/
structure RoomImageFields where
  room : Nat
  image_url : String
  image_type : String
deriving DecidableEq

/-- `User.ROLE_CHOICES` (models.py lines 13-17). -/
def ROLE_CHOICES : List (String × String) :=
  [("admin", "Admin"), ("dpt_staff", "Department Staff"), ("student", "Student")]

/-- `User.STATUS_CHOICES` (models.py lines 18-21). -/
def STATUS_CHOICES : List (String × String) :=
  [("enrolled", "Enrolled"), ("unenrolled", "Unenrolled")]

/-- `Task.recurrence_type` choices (models.py line 52). -/
def RECURRENCE_CHOICES : List (String × String) :=
  [("none", "None"), ("daily", "Daily"), ("weekly", "Weekly")]

/-- `RoomImage.IMAGE_TYPE_CHOICES` (models.py lines 126-129). -/
def IMAGE_TYPE_CHOICES : List (String × String) :=
  [("default", "Default"), ("floorplan", "Floorplan")]

/-- A choice field stores the short code, the first component of each pair. -/
def choiceCodes (cs : List (String × String)) : List String :=
  cs.map Prod.fst

/-- Whether a value belongs to a choice field's enumerated codes. -/
def validChoice (cs : List (String × String)) (v : String) : Bool :=
  (choiceCodes cs).contains v

/-- Fields of a `User` created with only a username supplied: `role`
defaults to student, `status` to enrolled, the optional columns to null. -/
def mkUserFields (username : String) : UserFields :=
  { username := username, student_id := none, role := "student",
    status := "enrolled", email := none, notes := none }

/-- Fields of a `TaskList` created with its two required columns. -/
def mkTaskListFields (name : String) (user : Nat) : TaskListFields :=
  { name := name, user := user }

/-- Fields of a `Task` created with only its required columns:
`completed` defaults to false, `recurrence_type` to none. -/
def mkTaskFields (description : String) (task_list : Nat) : TaskFields :=
  { description := description, completed := false, due_date := none,
    task_list := task_list, recurrence_type := "none", assigned_to := none }

/-- Fields of a `Room` created with its required columns; the three
blank-allowed text columns default to the empty string. -/
def mkRoomFields (name : String) (floor : Int) : RoomFields :=
  { name := name, floor := floor, persistent_note := "",
    usual_configuration := "", requested_infrastructure := "",
    last_contact_attempt := none }

/-- Fields of a `RoomCheck` created with its required columns:
`completed` and `room_issue` default to false, `note` to empty. -/
def mkRoomCheckFields (room task student_staff : Nat) : RoomCheckFields :=
  { room := room, task := task, completed := false, room_issue := false,
    note := "", student_staff := student_staff }

/-- Fields of a `RoomImage` created with its required columns:
`image_type` defaults to the default code. -/
def mkRoomImageFields (room : Nat) (image_url : String) : RoomImageFields :=
  { room := room, image_url := image_url, image_type := "default" }

/-- The whole database: one table per entity, the `rooms_access` join table
as (user id, room id) pairs, and the auto-increment counter. -/
structure DB where
  users : List (Rec UserFields)
  taskLists : List (Rec TaskListFields)
  tasks : List (Rec TaskFields)
  rooms : List (Rec RoomFields)
  roomAssignments : List (Rec RoomAssignmentFields)
  roomChecks : List (Rec RoomCheckFields)
  roomCheckImages : List (Rec RoomCheckImageFields)
  contactAttempts : List (Rec ContactAttemptFields)
  roomImages : List (Rec RoomImageFields)
  roomsAccess : List (Nat × Nat)
  nextId : Nat
deriving DecidableEq

/-- The empty database. -/
def emptyDB : DB :=
  { users := [], taskLists := [], tasks := [], rooms := [],
    roomAssignments := [], roomChecks := [], roomCheckImages := [],
    contactAttempts := [], roomImages := [], roomsAccess := [], nextId := 0 }

/-- A nullable foreign key is satisfied when null or naming an existing row. -/
def optExistsId (tbl : List (Rec α)) (o : Option Nat) : Bool :=
  match o with
  | some i => existsId tbl i
  | none => true

/- Create operations.  Each validates, in Django `full_clean` order, the
choice fields first, then uniqueness, then (at save) foreign keys, and on
success appends a freshly stamped row under the next primary key. -/

/-- Create a `User`: role and status must be enumerated codes; `username`
is unique; `email` and `student_id` are unique among present values. -/
def createUser (now : Nat) (f : UserFields) (db : DB) : Except DBError DB :=
  if ¬ (validChoice ROLE_CHOICES f.role && validChoice STATUS_CHOICES f.status) then
    .error .invalidChoice
  else if db.users.any (fun u => u.fields.username == f.username) then
    .error .uniqueViolation
  else if f.email.isSome && db.users.any (fun u => u.fields.email == f.email) then
    .error .uniqueViolation
  else if f.student_id.isSome && db.users.any (fun u => u.fields.student_id == f.student_id) then
    .error .uniqueViolation
  else
    .ok { db with users := db.users ++ [saveNew now db.nextId f],
                  nextId := db.nextId + 1 }

/-- Create a `TaskList`: its `user` foreign key must exist. -/
def createTaskList (now : Nat) (f : TaskListFields) (db : DB) : Except DBError DB :=
  if ¬ existsId db.users f.user then .error .fkNotFound
  else
    .ok { db with taskLists := db.taskLists ++ [saveNew now db.nextId f],
                  nextId := db.nextId + 1 }

/-- Create a `Task`: `recurrence_type` must be an enumerated code, the
`task_list` parent must exist, and `assigned_to`, when present, must
name an existing user. -/
def createTask (now : Nat) (f : TaskFields) (db : DB) : Except DBError DB :=
  if ¬ validChoice RECURRENCE_CHOICES f.recurrence_type then .error .invalidChoice
  else if ¬ existsId db.taskLists f.task_list then .error .fkNotFound
  else if ¬ optExistsId db.users f.assigned_to then .error .fkNotFound
  else
    .ok { db with tasks := db.tasks ++ [saveNew now db.nextId f],
                  nextId := db.nextId + 1 }

/-- Create a `Room`: no foreign keys, no choice fields. -/
def createRoom (now : Nat) (f : RoomFields) (db : DB) : Except DBError DB :=
  .ok { db with rooms := db.rooms ++ [saveNew now db.nextId f],
                nextId := db.nextId + 1 }

/-- Create a `RoomAssignment`: both parents must exist. -/
def createRoomAssignment (now : Nat) (f : RoomAssignmentFields) (db : DB) :
    Except DBError DB :=
  if ¬ (existsId db.rooms f.room && existsId db.users f.user) then .error .fkNotFound
  else
    .ok { db with roomAssignments := db.roomAssignments ++ [saveNew now db.nextId f],
                  nextId := db.nextId + 1 }

/-- Create a `RoomCheck`: all three parents must exist. -/
def createRoomCheck (now : Nat) (f : RoomCheckFields) (db : DB) : Except DBError DB :=
  if ¬ (existsId db.rooms f.room && existsId db.tasks f.task &&
        existsId db.users f.student_staff) then .error .fkNotFound
  else
    .ok { db with roomChecks := db.roomChecks ++ [saveNew now db.nextId f],
                  nextId := db.nextId + 1 }

/-- Create a `RoomCheckImage`: its `room_check` parent must exist. -/
def createRoomCheckImage (now : Nat) (f : RoomCheckImageFields) (db : DB) :
    Except DBError DB :=
  if ¬ existsId db.roomChecks f.room_check then .error .fkNotFound
  else
    .ok { db with roomCheckImages := db.roomCheckImages ++ [saveNew now db.nextId f],
                  nextId := db.nextId + 1 }

/-- Create a `ContactAttempt`: its `room` parent must exist. -/
def createContactAttempt (now : Nat) (f : ContactAttemptFields) (db : DB) :
    Except DBError DB :=
  if ¬ existsId db.rooms f.room then .error .fkNotFound
  else
    .ok { db with contactAttempts := db.contactAttempts ++ [saveNew now db.nextId f],
                  nextId := db.nextId + 1 }

/-- Create a `RoomImage`: `image_type` must be an enumerated code and the
`room` parent must exist. -/
def createRoomImage (now : Nat) (f : RoomImageFields) (db : DB) : Except DBError DB :=
  if ¬ validChoice IMAGE_TYPE_CHOICES f.image_type then .error .invalidChoice
  else if ¬ existsId db.rooms f.room then .error .fkNotFound
  else
    .ok { db with roomImages := db.roomImages ++ [saveNew now db.nextId f],
                  nextId := db.nextId + 1 }

/-- Add a `rooms_access` association: both endpoints must exist; the join
table carries no further data. -/
def addRoomAccess (uid rid : Nat) (db : DB) : Except DBError DB :=
  if ¬ (existsId db.users uid && existsId db.rooms rid) then .error .fkNotFound
  else .ok { db with roomsAccess := db.roomsAccess ++ [(uid, rid)] }

/-- Remove a `rooms_access` association: drops the matching join rows and
touches nothing else. -/
def removeRoomAccess (uid rid : Nat) (db : DB) : DB :=
  { db with roomsAccess := db.roomsAccess.filter (fun p => p != (uid, rid)) }

/- Update operations: same validations as the corresponding create
(uniqueness checks exclude the row being saved), then the row with the
given primary key is rewritten via `updateTable`. -/

/-- Update a `User` row. -/
def updateUser (now i : Nat) (f : UserFields) (db : DB) : Except DBError DB :=
  if ¬ (validChoice ROLE_CHOICES f.role && validChoice STATUS_CHOICES f.status) then
    .error .invalidChoice
  else if db.users.any (fun u => u.id != i && u.fields.username == f.username) then
    .error .uniqueViolation
  else if f.email.isSome &&
      db.users.any (fun u => u.id != i && u.fields.email == f.email) then
    .error .uniqueViolation
  else if f.student_id.isSome &&
      db.users.any (fun u => u.id != i && u.fields.student_id == f.student_id) then
    .error .uniqueViolation
  else .ok { db with users := updateTable i now f db.users }

/-- Update a `TaskList` row. -/
def updateTaskList (now i : Nat) (f : TaskListFields) (db : DB) : Except DBError DB :=
  if ¬ existsId db.users f.user then .error .fkNotFound
  else .ok { db with taskLists := updateTable i now f db.taskLists }

/-- Update a `Task` row. -/
def updateTask (now i : Nat) (f : TaskFields) (db : DB) : Except DBError DB :=
  if ¬ validChoice RECURRENCE_CHOICES f.recurrence_type then .error .invalidChoice
  else if ¬ existsId db.taskLists f.task_list then .error .fkNotFound
  else if ¬ optExistsId db.users f.assigned_to then .error .fkNotFound
  else .ok { db with tasks := updateTable i now f db.tasks }

/-- Update a `Room` row. -/
def updateRoom (now i : Nat) (f : RoomFields) (db : DB) : Except DBError DB :=
  .ok { db with rooms := updateTable i now f db.rooms }

/-- Update a `RoomAssignment` row. -/
def updateRoomAssignment (now i : Nat) (f : RoomAssignmentFields) (db : DB) :
    Except DBError DB :=
  if ¬ (existsId db.rooms f.room && existsId db.users f.user) then .error .fkNotFound
  else .ok { db with roomAssignments := updateTable i now f db.roomAssignments }

/-- Update a `RoomCheck` row. -/
def updateRoomCheck (now i : Nat) (f : RoomCheckFields) (db : DB) : Except DBError DB :=
  if ¬ (existsId db.rooms f.room && existsId db.tasks f.task &&
        existsId db.users f.student_staff) then .error .fkNotFound
  else .ok { db with roomChecks := updateTable i now f db.roomChecks }

/-- Update a `RoomCheckImage` row. -/
def updateRoomCheckImage (now i : Nat) (f : RoomCheckImageFields) (db : DB) :
    Except DBError DB :=
  if ¬ existsId db.roomChecks f.room_check then .error .fkNotFound
  else .ok { db with roomCheckImages := updateTable i now f db.roomCheckImages }

/-- Update a `ContactAttempt` row. -/
def updateContactAttempt (now i : Nat) (f : ContactAttemptFields) (db : DB) :
    Except DBError DB :=
  if ¬ existsId db.rooms f.room then .error .fkNotFound
  else .ok { db with contactAttempts := updateTable i now f db.contactAttempts }

/-- Update a `RoomImage` row. -/
def updateRoomImage (now i : Nat) (f : RoomImageFields) (db : DB) : Except DBError DB :=
  if ¬ validChoice IMAGE_TYPE_CHOICES f.image_type then .error .invalidChoice
  else if ¬ existsId db.rooms f.room then .error .fkNotFound
  else .ok { db with roomImages := updateTable i now f db.roomImages }

/- Delete operations.  Django's delete collector first gathers the
transitive set of rows to delete along `CASCADE` edges, removes them, and
applies `SET_NULL` updates to the rows that survive. -/

/-- Delete a `Room`: cascades to its `RoomAssignment`, `RoomCheck` (and,
through them, `RoomCheckImage`), `ContactAttempt` and `RoomImage` rows,
and clears its `rooms_access` join rows. -/
def deleteRoom (rid : Nat) (db : DB) : DB :=
  let deadChecks := (db.roomChecks.filter (fun c => c.fields.room == rid)).map (·.id)
  { db with
    rooms := db.rooms.filter (fun r => r.id != rid),
    roomAssignments := db.roomAssignments.filter (fun a => a.fields.room != rid),
    roomChecks := db.roomChecks.filter (fun c => c.fields.room != rid),
    roomCheckImages :=
      db.roomCheckImages.filter (fun i => ! deadChecks.contains i.fields.room_check),
    contactAttempts := db.contactAttempts.filter (fun c => c.fields.room != rid),
    roomImages := db.roomImages.filter (fun i => i.fields.room != rid),
    roomsAccess := db.roomsAccess.filter (fun p => p.2 != rid) }

/-- Delete a `User`: cascades to their `TaskList`s, transitively to the
`Task`s of those lists, to `RoomAssignment`s and `RoomCheck`s naming the
user (and checks of cascaded tasks, then their images), clears the join
rows, and nulls `assigned_to` on the tasks that survive (a bulk update
that does not touch their timestamps). -/
def deleteUser (uid : Nat) (db : DB) : DB :=
  let deadLists := (db.taskLists.filter (fun l => l.fields.user == uid)).map (·.id)
  let deadTasks :=
    (db.tasks.filter (fun t => deadLists.contains t.fields.task_list)).map (·.id)
  let deadChecks :=
    (db.roomChecks.filter
      (fun c => c.fields.student_staff == uid || deadTasks.contains c.fields.task)).map (·.id)
  { db with
    users := db.users.filter (fun u => u.id != uid),
    taskLists := db.taskLists.filter (fun l => l.fields.user != uid),
    tasks :=
      (db.tasks.filter (fun t => ! deadLists.contains t.fields.task_list)).map
        (fun t =>
          if t.fields.assigned_to == some uid then
            { t with fields := { t.fields with assigned_to := none } }
          else t),
    roomAssignments := db.roomAssignments.filter (fun a => a.fields.user != uid),
    roomChecks :=
      db.roomChecks.filter
        (fun c => ! (c.fields.student_staff == uid || deadTasks.contains c.fields.task)),
    roomCheckImages :=
      db.roomCheckImages.filter (fun i => ! deadChecks.contains i.fields.room_check),
    roomsAccess := db.roomsAccess.filter (fun p => p.1 != uid) }

/-- Delete a `TaskList`: cascades to its `Task`s, the `RoomCheck`s of
those tasks, and their `RoomCheckImage`s. -/
def deleteTaskList (lid : Nat) (db : DB) : DB :=
  let deadTasks := (db.tasks.filter (fun t => t.fields.task_list == lid)).map (·.id)
  let deadChecks :=
    (db.roomChecks.filter (fun c => deadTasks.contains c.fields.task)).map (·.id)
  { db with
    taskLists := db.taskLists.filter (fun l => l.id != lid),
    tasks := db.tasks.filter (fun t => t.fields.task_list != lid),
    roomChecks := db.roomChecks.filter (fun c => ! deadTasks.contains c.fields.task),
    roomCheckImages :=
      db.roomCheckImages.filter (fun i => ! deadChecks.contains i.fields.room_check) }

/-- Delete a `Task`: cascades to its `RoomCheck`s and their images. -/
def deleteTask (tid : Nat) (db : DB) : DB :=
  let deadChecks := (db.roomChecks.filter (fun c => c.fields.task == tid)).map (·.id)
  { db with
    tasks := db.tasks.filter (fun t => t.id != tid),
    roomChecks := db.roomChecks.filter (fun c => c.fields.task != tid),
    roomCheckImages :=
      db.roomCheckImages.filter (fun i => ! deadChecks.contains i.fields.room_check) }

/-- Delete a `RoomCheck`: cascades to its `RoomCheckImage`s. -/
def deleteRoomCheck (cid : Nat) (db : DB) : DB :=
  { db with
    roomChecks := db.roomChecks.filter (fun c => c.id != cid),
    roomCheckImages := db.roomCheckImages.filter (fun i => i.fields.room_check != cid) }

/-- Delete a `RoomAssignment`: no dependents. -/
def deleteRoomAssignment (aid : Nat) (db : DB) : DB :=
  { db with roomAssignments := db.roomAssignments.filter (fun a => a.id != aid) }

/-- Delete a `RoomCheckImage`: no dependents. -/
def deleteRoomCheckImage (iid : Nat) (db : DB) : DB :=
  { db with roomCheckImages := db.roomCheckImages.filter (fun i => i.id != iid) }

/-- Delete a `ContactAttempt`: no dependents. -/
def deleteContactAttempt (cid : Nat) (db : DB) : DB :=
  { db with contactAttempts := db.contactAttempts.filter (fun c => c.id != cid) }

/-- Delete a `RoomImage`: no dependents. -/
def deleteRoomImage (iid : Nat) (db : DB) : DB :=
  { db with roomImages := db.roomImages.filter (fun i => i.id != iid) }

/-- The state a rejected write leaves behind: an error keeps the previous
database, a successful write installs the new one. -/
def runWrite (db : DB) (r : Except DBError DB) : DB :=
  match r with
  | .ok db' => db'
  | .error _ => db

/- A concrete database used to exercise the theorems: two users, two
rooms, a task list per user, two tasks both assigned to user 1, and one
assignment / check / check image / contact attempt / room image per room. -/

/-- Sample user alice, id 1. -/
def aliceRow : Rec UserFields :=
  ⟨1, ⟨"alice", some "S1", "student", "enrolled", some "a@x.edu", none⟩, 0, 0⟩

/-- Sample user bob, id 2. -/
def bobRow : Rec UserFields :=
  ⟨2, ⟨"bob", none, "dpt_staff", "enrolled", none, none⟩, 0, 0⟩

/-- Sample task in alice's list, assigned to alice, id 10. -/
def taskARow : Rec TaskFields :=
  ⟨10, ⟨"water plants", false, none, 4, "none", some 1⟩, 0, 0⟩

/-- Sample task in bob's list, assigned to alice, id 11. -/
def taskBRow : Rec TaskFields :=
  ⟨11, ⟨"check projector", false, none, 5, "weekly", some 1⟩, 0, 0⟩

/-- Sample assignment of room 13 to bob, id 14. -/
def assignBRow : Rec RoomAssignmentFields :=
  ⟨14, ⟨13, 2, "F25"⟩, 0, 0⟩

/-- Sample check of room 13 by bob, id 15. -/
def checkBRow : Rec RoomCheckFields :=
  ⟨15, ⟨13, 11, false, false, "", 2⟩, 0, 0⟩

/-- Sample image of check 15, id 16. -/
def checkImageBRow : Rec RoomCheckImageFields :=
  ⟨16, ⟨15, "img16.png"⟩, 0, 0⟩

/-- The sample database. -/
def sampleDB : DB :=
  { users := [aliceRow, bobRow],
    taskLists := [⟨4, ⟨"alice tasks", 1⟩, 0, 0⟩, ⟨5, ⟨"bob tasks", 2⟩, 0, 0⟩],
    tasks := [taskARow, taskBRow],
    rooms := [⟨3, ⟨"101", 1, "", "", "", none⟩, 0, 0⟩,
              ⟨13, ⟨"202", 2, "", "", "", none⟩, 0, 0⟩],
    roomAssignments := [⟨6, ⟨3, 1, "F25"⟩, 0, 0⟩, assignBRow],
    roomChecks := [⟨7, ⟨3, 11, false, false, "", 2⟩, 0, 0⟩, checkBRow],
    roomCheckImages := [⟨8, ⟨7, "img8.png"⟩, 0, 0⟩, checkImageBRow],
    contactAttempts := [⟨9, ⟨3, 5, ["occupant"], "hello", ""⟩, 0, 0⟩,
                        ⟨17, ⟨13, 6, ["occupant"], "hi", ""⟩, 0, 0⟩],
    roomImages := [⟨12, ⟨3, "room3.png", "default"⟩, 0, 0⟩,
                   ⟨18, ⟨13, "room13.png", "floorplan"⟩, 0, 0⟩],
    roomsAccess := [(1, 3), (2, 13)],
    nextId := 19 }

/- Theorems. -/

/-- C1: deleting a `Room` deletes every `RoomAssignment`, `RoomCheck`,
`RoomImage` and `ContactAttempt` row whose foreign key references that
room, and, transitively through the deleted checks, every
`RoomCheckImage` of a check that referenced the room. -/
theorem deleteRoom_cascades (db : DB) (rid : Nat) :
    (∀ a ∈ (deleteRoom rid db).roomAssignments, a.fields.room ≠ rid) ∧
    (∀ c ∈ (deleteRoom rid db).roomChecks, c.fields.room ≠ rid) ∧
    (∀ i ∈ (deleteRoom rid db).roomImages, i.fields.room ≠ rid) ∧
    (∀ c ∈ (deleteRoom rid db).contactAttempts, c.fields.room ≠ rid) ∧
    (∀ img ∈ (deleteRoom rid db).roomCheckImages, ∀ c ∈ db.roomChecks,
        c.fields.room = rid → img.fields.room_check ≠ c.id) := by
  refine ⟨?_, ?_, ?_, ?_, ?_⟩
  · intro a ha; simp [deleteRoom, List.mem_filter] at ha; exact ha.2
  · intro c hc; simp [deleteRoom, List.mem_filter] at hc; exact hc.2
  · intro i hi; simp [deleteRoom, List.mem_filter] at hi; exact hi.2
  · intro c hc; simp [deleteRoom, List.mem_filter] at hc; exact hc.2
  · intro img himg c hc hroom heq
    simp [deleteRoom, List.mem_filter] at himg
    exact himg.2 c hc hroom heq.symm

/-- C1 witness: in the sample database, deleting room 3 leaves the rows of
room 13 behind, and each surviving row indeed does not reference room 3. -/
theorem deleteRoom_cascades_witness :
    (assignBRow ∈ (deleteRoom 3 sampleDB).roomAssignments ∧
      assignBRow.fields.room ≠ 3) ∧
    (checkImageBRow ∈ (deleteRoom 3 sampleDB).roomCheckImages ∧
      checkImageBRow.fields.room_check ≠ (7 : Nat)) :=
  ⟨⟨by decide, (deleteRoom_cascades sampleDB 3).1 assignBRow (by decide)⟩,
   ⟨by decide,
    (deleteRoom_cascades sampleDB 3).2.2.2.2 checkImageBRow (by decide)
      ⟨7, ⟨3, 11, false, false, "", 2⟩, 0, 0⟩ (by decide) (by decide)⟩⟩

/-- C5: deleting a `User` deletes every `TaskList` owned by the user,
transitively every `Task` belonging to those lists, every
`RoomAssignment` naming the user, and every `RoomCheck` whose
`student_staff` is the user. -/
theorem deleteUser_cascades (db : DB) (uid : Nat) :
    (∀ l ∈ (deleteUser uid db).taskLists, l.fields.user ≠ uid) ∧
    (∀ t ∈ (deleteUser uid db).tasks, ∀ l ∈ db.taskLists,
        l.fields.user = uid → t.fields.task_list ≠ l.id) ∧
    (∀ a ∈ (deleteUser uid db).roomAssignments, a.fields.user ≠ uid) ∧
    (∀ c ∈ (deleteUser uid db).roomChecks, c.fields.student_staff ≠ uid) := by
  refine ⟨?_, ?_, ?_, ?_⟩
  · intro l hl; simp [deleteUser, List.mem_filter] at hl; exact hl.2
  · intro t ht l hl huser heq
    simp [deleteUser, List.mem_filter, List.mem_map] at ht
    obtain ⟨t0, ⟨ht0, hlive⟩, hmap⟩ := ht
    have hsame : t.fields.task_list = t0.fields.task_list := by
      rw [← hmap]; split <;> rfl
    exact hlive l hl huser (by rw [← hsame, heq])
  · intro a ha; simp [deleteUser, List.mem_filter] at ha; exact ha.2
  · intro c hc; simp [deleteUser, List.mem_filter] at hc; exact hc.2.1

/-- C5 witness: deleting alice (user 1) from the sample database keeps
bob's task (list 5) and bob's check, and those indeed do not belong to
alice's list 4 nor name alice. -/
theorem deleteUser_cascades_witness :
    ((⟨4, ⟨"alice tasks", 1⟩, 0, 0⟩ : Rec TaskListFields) ∈ sampleDB.taskLists ∧
      ∃ t ∈ (deleteUser 1 sampleDB).tasks, t.id = 11 ∧ t.fields.task_list ≠ 4) ∧
    (∃ c ∈ (deleteUser 1 sampleDB).roomChecks, c.fields.student_staff ≠ 1) := by
  refine ⟨⟨by decide, ?_⟩, ?_⟩
  · refine ⟨⟨11, ⟨"check projector", false, none, 5, "weekly", none⟩, 0, 0⟩, ?_, by decide, ?_⟩
    · decide
    · exact (deleteUser_cascades sampleDB 1).2.1
        ⟨11, ⟨"check projector", false, none, 5, "weekly", none⟩, 0, 0⟩ (by decide)
        ⟨4, ⟨"alice tasks", 1⟩, 0, 0⟩ (by decide) (by decide)
  · refine ⟨checkBRow, by decide, ?_⟩
    exact (deleteUser_cascades sampleDB 1).2.2.2 checkBRow (by decide)

/-- C2 counterexample: in the sample database task 10 is assigned to
user 1, yet after deleting user 1 no task with id 10 exists — the task
does not survive, because it belongs to task list 4, which user 1 owns,
and the cascade through `TaskList` deletes it.  This refutes the claim
that every task assigned to a deleted user still exists afterwards. -/
theorem deleteUser_assigned_task_gone :
    (∃ t ∈ sampleDB.tasks, t.id = 10 ∧ t.fields.assigned_to = some 1) ∧
    (∀ t ∈ (deleteUser 1 sampleDB).tasks, t.id ≠ 10) := by decide

/-- C2 (amended): deleting user u nulls `assigned_to` on every task
assigned to u and keeps the task with all other columns and timestamps
unchanged, provided the task's own `TaskList` is not owned by u (a task
in one of u's lists is instead removed by the cascade). -/
theorem deleteUser_sets_assigned_null (db : DB) (uid : Nat) (t : Rec TaskFields)
    (ht : t ∈ db.tasks) (hass : t.fields.assigned_to = some uid)
    (hown : ∀ l ∈ db.taskLists, l.id = t.fields.task_list → l.fields.user ≠ uid) :
    ∃ t' ∈ (deleteUser uid db).tasks,
      t'.id = t.id ∧ t'.fields.assigned_to = none ∧
      t'.fields.description = t.fields.description ∧
      t'.fields.completed = t.fields.completed ∧
      t'.fields.due_date = t.fields.due_date ∧
      t'.fields.task_list = t.fields.task_list ∧
      t'.fields.recurrence_type = t.fields.recurrence_type ∧
      t'.created_at = t.created_at ∧ t'.updated_at = t.updated_at := by
  refine ⟨{ t with fields := { t.fields with assigned_to := none } },
    ?_, rfl, rfl, rfl, rfl, rfl, rfl, rfl, rfl, rfl⟩
  simp [deleteUser, List.mem_map, List.mem_filter]
  refine ⟨t, ⟨ht, ?_⟩, ?_⟩
  · intro l hl huser hid
    exact hown l hl hid huser
  · simp [hass]

/-- C2 (amended) witness: task 11 sits in bob's list and is assigned to
alice; deleting alice keeps it with `assigned_to` cleared. -/
theorem deleteUser_sets_assigned_null_witness :
    (taskBRow ∈ sampleDB.tasks ∧ taskBRow.fields.assigned_to = some 1 ∧
      (∀ l ∈ sampleDB.taskLists, l.id = taskBRow.fields.task_list →
        l.fields.user ≠ 1)) ∧
    (∃ t' ∈ (deleteUser 1 sampleDB).tasks,
      t'.id = taskBRow.id ∧ t'.fields.assigned_to = none ∧
      t'.fields.description = taskBRow.fields.description ∧
      t'.fields.completed = taskBRow.fields.completed ∧
      t'.fields.due_date = taskBRow.fields.due_date ∧
      t'.fields.task_list = taskBRow.fields.task_list ∧
      t'.fields.recurrence_type = taskBRow.fields.recurrence_type ∧
      t'.created_at = taskBRow.created_at ∧
      t'.updated_at = taskBRow.updated_at) :=
  ⟨⟨by decide, by decide, by decide⟩,
   deleteUser_sets_assigned_null sampleDB 1 taskBRow (by decide) (by decide)
     (by decide)⟩

/-- C10: deleting a `Room` removes exactly its `rooms_access` join rows
while leaving the user table untouched; deleting a `User` removes that
user's join rows while leaving the room table untouched; and removing a
single association changes no table other than the join table. -/
theorem roomsAccess_frame (db : DB) (uid rid : Nat) :
    (∀ p ∈ (deleteRoom rid db).roomsAccess, p.2 ≠ rid) ∧
    (∀ p ∈ db.roomsAccess, p.2 ≠ rid → p ∈ (deleteRoom rid db).roomsAccess) ∧
    (deleteRoom rid db).users = db.users ∧
    (∀ p ∈ (deleteUser uid db).roomsAccess, p.1 ≠ uid) ∧
    (∀ p ∈ db.roomsAccess, p.1 ≠ uid → p ∈ (deleteUser uid db).roomsAccess) ∧
    (deleteUser uid db).rooms = db.rooms ∧
    (removeRoomAccess uid rid db).users = db.users ∧
    (removeRoomAccess uid rid db).taskLists = db.taskLists ∧
    (removeRoomAccess uid rid db).tasks = db.tasks ∧
    (removeRoomAccess uid rid db).rooms = db.rooms ∧
    (removeRoomAccess uid rid db).roomAssignments = db.roomAssignments ∧
    (removeRoomAccess uid rid db).roomChecks = db.roomChecks ∧
    (removeRoomAccess uid rid db).roomCheckImages = db.roomCheckImages ∧
    (removeRoomAccess uid rid db).contactAttempts = db.contactAttempts ∧
    (removeRoomAccess uid rid db).roomImages = db.roomImages := by
  refine ⟨?_, ?_, rfl, ?_, ?_, rfl, rfl, rfl, rfl, rfl, rfl, rfl, rfl, rfl, rfl⟩
  · intro p hp; simp [deleteRoom, List.mem_filter] at hp; exact hp.2
  · intro p hp hne; simp [deleteRoom, List.mem_filter]; exact ⟨hp, hne⟩
  · intro p hp; simp [deleteUser, List.mem_filter] at hp; exact hp.2
  · intro p hp hne; simp [deleteUser, List.mem_filter]; exact ⟨hp, hne⟩

/-- C10 witness: in the sample database, the (2, 13) association survives
`deleteRoom 3` and `deleteUser 1`, and the (1, 3) association survives
both in reverse; every membership hypothesis is discharged concretely. -/
theorem roomsAccess_frame_witness :
    ((2, 13) ∈ (deleteRoom 3 sampleDB).roomsAccess ∧ (13 : Nat) ≠ 3) ∧
    ((2, 13) ∈ (deleteUser 1 sampleDB).roomsAccess ∧ (2 : Nat) ≠ 1) :=
  ⟨⟨(roomsAccess_frame sampleDB 1 3).2.1 (2, 13) (by decide) (by decide),
    by decide⟩,
   ⟨(roomsAccess_frame sampleDB 1 3).2.2.2.2.1 (2, 13) (by decide) (by decide),
    by decide⟩⟩

/-- C8: a record created with only its required columns carries the
declared defaults: a new user is an enrolled student, a new task is
incomplete and non-recurring, a new room check is incomplete with no
issue flagged, and a new room image is of the default type. -/
theorem creation_defaults (u d url : String) (l r t s : Nat) :
    (mkUserFields u).role = "student" ∧
    (mkUserFields u).status = "enrolled" ∧
    (mkTaskFields d l).completed = false ∧
    (mkTaskFields d l).recurrence_type = "none" ∧
    (mkRoomCheckFields r t s).completed = false ∧
    (mkRoomCheckFields r t s).room_issue = false ∧
    (mkRoomImageFields r url).image_type = "default" :=
  ⟨rfl, rfl, rfl, rfl, rfl, rfl, rfl⟩

/-- C3: the four choice fields accept exactly their enumerated short
codes; writing (creating or updating) a row whose choice value lies
outside the set is rejected with an invalid-choice error, so a write
succeeds only when the value is enumerated. -/
theorem choice_fields_enforced (now i : Nat) (f : UserFields) (g : TaskFields)
    (ri : RoomImageFields) (db : DB) :
    choiceCodes ROLE_CHOICES = ["admin", "dpt_staff", "student"] ∧
    choiceCodes STATUS_CHOICES = ["enrolled", "unenrolled"] ∧
    choiceCodes RECURRENCE_CHOICES = ["none", "daily", "weekly"] ∧
    choiceCodes IMAGE_TYPE_CHOICES = ["default", "floorplan"] ∧
    (validChoice ROLE_CHOICES f.role = false ∨
        validChoice STATUS_CHOICES f.status = false →
      createUser now f db = .error .invalidChoice ∧
      updateUser now i f db = .error .invalidChoice) ∧
    (validChoice RECURRENCE_CHOICES g.recurrence_type = false →
      createTask now g db = .error .invalidChoice ∧
      updateTask now i g db = .error .invalidChoice) ∧
    (validChoice IMAGE_TYPE_CHOICES ri.image_type = false →
      createRoomImage now ri db = .error .invalidChoice ∧
      updateRoomImage now i ri db = .error .invalidChoice) := by
  refine ⟨rfl, rfl, rfl, rfl, ?_, ?_, ?_⟩
  · rintro (h | h) <;>
      exact ⟨by simp [createUser, h], by simp [updateUser, h]⟩
  · intro h
    exact ⟨by simp [createTask, h], by simp [updateTask, h]⟩
  · intro h
    exact ⟨by simp [createRoomImage, h], by simp [updateRoomImage, h]⟩

/-- C3 witness: the out-of-set values teacher, monthly and panorama are
rejected with an invalid-choice error on concrete writes. -/
theorem choice_fields_enforced_witness :
    (validChoice ROLE_CHOICES "teacher" = false ∧
      createUser 0 { mkUserFields "x" with role := "teacher" } sampleDB =
        .error .invalidChoice) ∧
    (validChoice RECURRENCE_CHOICES "monthly" = false ∧
      createTask 0 { mkTaskFields "d" 4 with recurrence_type := "monthly" }
        sampleDB = .error .invalidChoice) ∧
    (validChoice IMAGE_TYPE_CHOICES "panorama" = false ∧
      updateRoomImage 0 12 { mkRoomImageFields 3 "u.png" with
        image_type := "panorama" } sampleDB = .error .invalidChoice) :=
  ⟨⟨by decide,
    ((choice_fields_enforced 0 0 { mkUserFields "x" with role := "teacher" }
        (mkTaskFields "d" 4) (mkRoomImageFields 3 "u.png") sampleDB).2.2.2.2.1
      (Or.inl (by decide))).1⟩,
   ⟨by decide,
    ((choice_fields_enforced 0 0 (mkUserFields "x")
        { mkTaskFields "d" 4 with recurrence_type := "monthly" }
        (mkRoomImageFields 3 "u.png") sampleDB).2.2.2.2.2.1 (by decide)).1⟩,
   ⟨by decide,
    ((choice_fields_enforced 0 12 (mkUserFields "x") (mkTaskFields "d" 4)
        { mkRoomImageFields 3 "u.png" with image_type := "panorama" }
        sampleDB).2.2.2.2.2.2 (by decide)).2⟩⟩

/-- C4: creating a `User` whose email (respectively student id) equals an
existing user's present email (respectively student id) fails with a
uniqueness violation and leaves the database unchanged, while both
fields may repeat as null: a user with null email and student id is
accepted regardless of other users' null values. -/
theorem user_uniqueness (now : Nat) (f : UserFields) (db : DB) :
    (validChoice ROLE_CHOICES f.role = true →
      validChoice STATUS_CHOICES f.status = true →
      db.users.any (fun u => u.fields.username == f.username) = false →
      f.email.isSome = true →
      db.users.any (fun u => u.fields.email == f.email) = true →
      createUser now f db = .error .uniqueViolation ∧
      runWrite db (createUser now f db) = db) ∧
    (validChoice ROLE_CHOICES f.role = true →
      validChoice STATUS_CHOICES f.status = true →
      db.users.any (fun u => u.fields.username == f.username) = false →
      (f.email.isSome && db.users.any (fun u => u.fields.email == f.email)) = false →
      f.student_id.isSome = true →
      db.users.any (fun u => u.fields.student_id == f.student_id) = true →
      createUser now f db = .error .uniqueViolation ∧
      runWrite db (createUser now f db) = db) ∧
    (f.email = none → f.student_id = none →
      validChoice ROLE_CHOICES f.role = true →
      validChoice STATUS_CHOICES f.status = true →
      db.users.any (fun u => u.fields.username == f.username) = false →
      createUser now f db =
        .ok { db with users := db.users ++ [saveNew now db.nextId f],
                      nextId := db.nextId + 1 }) := by
  refine ⟨?_, ?_, ?_⟩
  · intro h1 h2 h3 h4 h5
    exact ⟨by simp [createUser, h1, h2, h3, h4, h5],
           by simp [runWrite, createUser, h1, h2, h3, h4, h5]⟩
  · intro h1 h2 h3 h4 h5 h6
    exact ⟨by simp [createUser, h1, h2, h3, h4, h5, h6],
           by simp [runWrite, createUser, h1, h2, h3, h4, h5, h6]⟩
  · intro he hs h1 h2 h3
    simp [createUser, h1, h2, h3, he, hs]

/-- C4 witness: carol duplicating alice's email and dan duplicating
alice's student id are both rejected and leave the sample database
unchanged, while erin, whose email and student id are null like bob's,
is accepted. -/
theorem user_uniqueness_witness :
    (createUser 0 { mkUserFields "carol" with email := some "a@x.edu" }
        sampleDB = .error .uniqueViolation ∧
      runWrite sampleDB (createUser 0 { mkUserFields "carol" with
        email := some "a@x.edu" } sampleDB) = sampleDB) ∧
    (createUser 0 { mkUserFields "dan" with student_id := some "S1" }
        sampleDB = .error .uniqueViolation ∧
      runWrite sampleDB (createUser 0 { mkUserFields "dan" with
        student_id := some "S1" } sampleDB) = sampleDB) ∧
    createUser 0 (mkUserFields "erin") sampleDB =
      .ok { sampleDB with
              users := sampleDB.users ++ [saveNew 0 19 (mkUserFields "erin")],
              nextId := 20 } :=
  ⟨(user_uniqueness 0 { mkUserFields "carol" with email := some "a@x.edu" }
      sampleDB).1 (by decide) (by decide) (by decide) (by decide) (by decide),
   (user_uniqueness 0 { mkUserFields "dan" with student_id := some "S1" }
      sampleDB).2.1 (by decide) (by decide) (by decide) (by decide) (by decide)
      (by decide),
   (user_uniqueness 0 (mkUserFields "erin") sampleDB).2.2 rfl rfl (by decide)
      (by decide) (by decide)⟩

/-- No two stored users share a username; `username` itself is a required
column of `UserFields` (a plain string, separate from the optional
`email`), inherited from the framework's abstract user. -/
def UsernamesUnique (db : DB) : Prop :=
  db.users.Pairwise (fun a b => a.fields.username ≠ b.fields.username)

/-- C9: the username inherited from `AbstractUser` is required and
globally unique: creating a user whose username is already taken fails
with a uniqueness violation, and username uniqueness is an invariant
that holds initially and is preserved by every successful creation. -/
theorem username_required_unique (now : Nat) (f : UserFields) (db : DB) :
    UsernamesUnique emptyDB ∧
    (validChoice ROLE_CHOICES f.role = true →
      validChoice STATUS_CHOICES f.status = true →
      db.users.any (fun u => u.fields.username == f.username) = true →
      createUser now f db = .error .uniqueViolation) ∧
    (∀ db', createUser now f db = .ok db' →
      UsernamesUnique db → UsernamesUnique db') := by
  refine ⟨by simp [UsernamesUnique, emptyDB], ?_, ?_⟩
  · intro h1 h2 h3
    simp [createUser, h1, h2, h3]
  · intro db' h hu
    unfold createUser at h
    split at h
    · exact Except.noConfusion h
    split at h
    · exact Except.noConfusion h
    rename_i hname
    split at h
    · exact Except.noConfusion h
    split at h
    · exact Except.noConfusion h
    have hdb : ({ db with users := db.users ++ [saveNew now db.nextId f],
                          nextId := db.nextId + 1 } : DB) = db' :=
      Except.ok.inj h
    subst hdb
    simp only [not_true, List.any_eq_true, not_exists, not_and,
      beq_iff_eq] at hname
    unfold UsernamesUnique at hu ⊢
    simp only [List.pairwise_append, List.pairwise_singleton,
      List.mem_singleton, forall_eq, saveNew] at *
    exact ⟨hu, trivial, fun a ha => fun heq => hname a ha heq⟩

/-- C9 witness: the empty database satisfies the invariant, re-creating
alice is rejected, and creating erin in the sample database preserves
pairwise-distinct usernames. -/
theorem username_required_unique_witness :
    createUser 0 { mkUserFields "alice" with role := "admin" } sampleDB =
      .error .uniqueViolation ∧
    UsernamesUnique
      { sampleDB with
          users := sampleDB.users ++ [saveNew 0 19 (mkUserFields "erin")],
          nextId := 20 } :=
  ⟨(username_required_unique 0 { mkUserFields "alice" with role := "admin" }
      sampleDB).2.1 (by decide) (by decide) (by decide),
   (username_required_unique 0 (mkUserFields "erin") sampleDB).2.2
      { sampleDB with
          users := sampleDB.users ++ [saveNew 0 19 (mkUserFields "erin")],
          nextId := 20 } rfl (by unfold UsernamesUnique; decide)⟩

/-- C7: timestamps are storage-managed for every entity (each table is a
`List (Rec α)` and every write goes through `saveNew` or `updateTable`):
an insert stamps both timestamps with the current time and stores
exactly the supplied columns; a later save of a row keeps `created_at`,
rewrites `updated_at`, replaces exactly the columns, and leaves every
other row untouched; the column structures carry no timestamp fields, so
application code cannot set either one.  The user operations are anchored
to this mechanism explicitly. -/
theorem timestamps_storage_managed {α : Type} (i now : Nat) (a : α)
    (tbl : List (Rec α)) :
    ((saveNew now i a).created_at = now ∧ (saveNew now i a).updated_at = now ∧
      (saveNew now i a).fields = a ∧ (saveNew now i a).id = i) ∧
    (∀ r ∈ tbl, r.id ≠ i → r ∈ updateTable i now a tbl) ∧
    (∀ r' ∈ updateTable i now a tbl, r'.id = i →
      ∃ r0 ∈ tbl, r0.id = i ∧ r'.created_at = r0.created_at ∧
        r'.updated_at = now ∧ r'.fields = a) ∧
    (∀ r' ∈ updateTable i now a tbl, r'.id ≠ i → r' ∈ tbl) ∧
    (∀ (db : DB) (f : UserFields) (db' : DB), createUser now f db = .ok db' →
      db'.users = db.users ++ [saveNew now db.nextId f]) ∧
    (∀ (db : DB) (f : UserFields) (db' : DB), updateUser now i f db = .ok db' →
      db'.users = updateTable i now f db.users) := by
  refine ⟨⟨rfl, rfl, rfl, rfl⟩, ?_, ?_, ?_, ?_, ?_⟩
  · intro r hr hne
    simp only [updateTable, List.mem_map]
    exact ⟨r, hr, by simp [hne]⟩
  · intro r' hr' hid
    simp only [updateTable, List.mem_map] at hr'
    obtain ⟨r0, hr0, hmap⟩ := hr'
    by_cases h0 : r0.id = i
    · refine ⟨r0, hr0, h0, ?_, ?_, ?_⟩ <;>
        simp [← hmap, h0, saveUpdate]
    · exfalso
      rw [← hmap] at hid
      simp [h0] at hid
  · intro r' hr' hne
    simp only [updateTable, List.mem_map] at hr'
    obtain ⟨r0, hr0, hmap⟩ := hr'
    by_cases h0 : r0.id = i
    · exfalso
      rw [← hmap] at hne
      simp [h0, saveUpdate] at hne
    · rw [← hmap]
      simpa [h0] using hr0
  · intro db f db' h
    unfold createUser at h
    split at h
    · exact Except.noConfusion h
    split at h
    · exact Except.noConfusion h
    split at h
    · exact Except.noConfusion h
    split at h
    · exact Except.noConfusion h
    rw [← Except.ok.inj h]
  · intro db f db' h
    unfold updateUser at h
    split at h
    · exact Except.noConfusion h
    split at h
    · exact Except.noConfusion h
    split at h
    · exact Except.noConfusion h
    split at h
    · exact Except.noConfusion h
    rw [← Except.ok.inj h]

/-- C7 witness: saving alice's row at time 5 with an unenrolled status
keeps her creation time 0, stamps `updated_at` with 5, stores the new
columns, and leaves bob's row untouched. -/
theorem timestamps_storage_managed_witness :
    bobRow ∈ updateTable 1 5 { aliceRow.fields with status := "unenrolled" }
      sampleDB.users ∧
    (∃ r0 ∈ sampleDB.users, r0.id = 1 ∧
      (⟨1, { aliceRow.fields with status := "unenrolled" }, 0, 5⟩ :
        Rec UserFields).created_at = r0.created_at ∧
      (⟨1, { aliceRow.fields with status := "unenrolled" }, 0, 5⟩ :
        Rec UserFields).updated_at = 5 ∧
      (⟨1, { aliceRow.fields with status := "unenrolled" }, 0, 5⟩ :
        Rec UserFields).fields = { aliceRow.fields with status := "unenrolled" }) :=
  ⟨(timestamps_storage_managed 1 5 { aliceRow.fields with status := "unenrolled" }
      sampleDB.users).2.1 bobRow (by decide) (by decide),
   (timestamps_storage_managed 1 5 { aliceRow.fields with status := "unenrolled" }
      sampleDB.users).2.2.1
      ⟨1, { aliceRow.fields with status := "unenrolled" }, 0, 5⟩
      (by decide) (by decide)⟩

/- Referential integrity. -/

/-- A primary key found in a table stays found after appending rows. -/
theorem existsId_append {α : Type} (tbl l : List (Rec α)) (j : Nat)
    (h : existsId tbl j = true) : existsId (tbl ++ l) j = true := by
  simp only [existsId, List.any_eq_true, beq_iff_eq] at h ⊢
  obtain ⟨r, hr, hid⟩ := h
  exact ⟨r, List.mem_append_left _ hr, hid⟩

/-- Unfolding of a successful primary-key lookup. -/
theorem exists_of_existsId {α : Type} {tbl : List (Rec α)} {j : Nat}
    (h : existsId tbl j = true) : ∃ r ∈ tbl, r.id = j := by
  simpa only [existsId, List.any_eq_true, beq_iff_eq] using h

/-- A member with the right primary key certifies the lookup. -/
theorem existsId_intro {α : Type} {tbl : List (Rec α)} {r : Rec α} {j : Nat}
    (h : r ∈ tbl) (hid : r.id = j) : existsId tbl j = true := by
  simp only [existsId, List.any_eq_true, beq_iff_eq]
  exact ⟨r, h, hid⟩

/-- Saving a row rewrites columns and `updated_at` but no primary key, so
lookups across an updated table are unchanged. -/
theorem existsId_updateTable {α : Type} (i now : Nat) (a : α)
    (tbl : List (Rec α)) (j : Nat) :
    existsId (updateTable i now a tbl) j = existsId tbl j := by
  induction tbl with
  | nil => rfl
  | cons r tl ih =>
    by_cases h : r.id = i <;>
      simp [updateTable, existsId, saveUpdate, h, List.any_cons] at ih ⊢ <;>
      rw [← ih]

/-- Membership in a one-row extension. -/
theorem mem_append_singleton {α : Type} {x r : α} {l : List α}
    (h : r ∈ l ++ [x]) : r ∈ l ∨ r = x := by
  simpa using h

/-- A row of an updated table is an original row or carries the new
columns. -/
theorem mem_updateTable {α : Type} {i now : Nat} {a : α} {tbl : List (Rec α)}
    {r' : Rec α} (h : r' ∈ updateTable i now a tbl) :
    r' ∈ tbl ∨ r'.fields = a := by
  simp only [updateTable, List.mem_map] at h
  obtain ⟨r0, hr0, hmap⟩ := h
  by_cases h0 : r0.id = i
  · right; rw [← hmap]; simp [h0, saveUpdate]
  · left; rw [← hmap]; simpa [h0] using hr0

/-- A deletion filter on primary keys keeps every row with a different
key, so surviving foreign keys still resolve. -/
theorem existsId_filter_ne {α : Type} {tbl : List (Rec α)} {j rid : Nat}
    (h : existsId tbl j = true) (hne : j ≠ rid) :
    existsId (tbl.filter (fun r => r.id != rid)) j = true := by
  obtain ⟨r, hr, hid⟩ := exists_of_existsId h
  exact existsId_intro (List.mem_filter.2 ⟨hr, by simp [hid]; exact hne⟩) hid

/-- Referential integrity: every foreign key of every stored row resolves
to an existing parent row (the spec's invariant, one clause per declared
`ForeignKey` or many-to-many endpoint). -/
structure RefIntegrity (db : DB) : Prop where
  taskList_user : ∀ l ∈ db.taskLists, existsId db.users l.fields.user = true
  task_taskList : ∀ t ∈ db.tasks, existsId db.taskLists t.fields.task_list = true
  task_assigned : ∀ t ∈ db.tasks, ∀ u, t.fields.assigned_to = some u →
    existsId db.users u = true
  assignment_room : ∀ a ∈ db.roomAssignments,
    existsId db.rooms a.fields.room = true
  assignment_user : ∀ a ∈ db.roomAssignments,
    existsId db.users a.fields.user = true
  check_room : ∀ c ∈ db.roomChecks, existsId db.rooms c.fields.room = true
  check_task : ∀ c ∈ db.roomChecks, existsId db.tasks c.fields.task = true
  check_staff : ∀ c ∈ db.roomChecks,
    existsId db.users c.fields.student_staff = true
  checkImage_check : ∀ i ∈ db.roomCheckImages,
    existsId db.roomChecks i.fields.room_check = true
  contact_room : ∀ c ∈ db.contactAttempts, existsId db.rooms c.fields.room = true
  roomImage_room : ∀ i ∈ db.roomImages, existsId db.rooms i.fields.room = true
  access_user : ∀ p ∈ db.roomsAccess, existsId db.users p.1 = true
  access_room : ∀ p ∈ db.roomsAccess, existsId db.rooms p.2 = true

/-- The empty database is referentially intact. -/
theorem refIntegrity_empty : RefIntegrity emptyDB := by
  constructor <;> simp [emptyDB]

/-- Creating a user preserves referential integrity: the user table only
grows, so every resolved reference stays resolved. -/
theorem createUser_integrity {now : Nat} {f : UserFields} {db db' : DB}
    (h : createUser now f db = .ok db') (hI : RefIntegrity db) :
    RefIntegrity db' := by
  unfold createUser at h
  split at h
  · exact Except.noConfusion h
  split at h
  · exact Except.noConfusion h
  split at h
  · exact Except.noConfusion h
  split at h
  · exact Except.noConfusion h
  rw [← Except.ok.inj h]
  exact
    { taskList_user := fun l hl => existsId_append _ _ _ (hI.taskList_user l hl)
      task_taskList := hI.task_taskList
      task_assigned := fun t ht u hu =>
        existsId_append _ _ _ (hI.task_assigned t ht u hu)
      assignment_room := hI.assignment_room
      assignment_user := fun a ha =>
        existsId_append _ _ _ (hI.assignment_user a ha)
      check_room := hI.check_room
      check_task := hI.check_task
      check_staff := fun c hc => existsId_append _ _ _ (hI.check_staff c hc)
      checkImage_check := hI.checkImage_check
      contact_room := hI.contact_room
      roomImage_room := hI.roomImage_room
      access_user := fun p hp => existsId_append _ _ _ (hI.access_user p hp)
      access_room := hI.access_room }

/-- Creating a task list preserves referential integrity: the new row's
`user` key was validated, old rows are untouched. -/
theorem createTaskList_integrity {now : Nat} {f : TaskListFields} {db db' : DB}
    (h : createTaskList now f db = .ok db') (hI : RefIntegrity db) :
    RefIntegrity db' := by
  unfold createTaskList at h
  split at h
  · exact Except.noConfusion h
  rename_i hfk
  rw [not_not] at hfk
  rw [← Except.ok.inj h]
  exact
    { taskList_user := fun l hl => by
        rcases mem_append_singleton hl with h' | h'
        · exact hI.taskList_user l h'
        · rw [h']; exact hfk
      task_taskList := fun t ht =>
        existsId_append _ _ _ (hI.task_taskList t ht)
      task_assigned := hI.task_assigned
      assignment_room := hI.assignment_room
      assignment_user := hI.assignment_user
      check_room := hI.check_room
      check_task := hI.check_task
      check_staff := hI.check_staff
      checkImage_check := hI.checkImage_check
      contact_room := hI.contact_room
      roomImage_room := hI.roomImage_room
      access_user := hI.access_user
      access_room := hI.access_room }

/-- Creating a task preserves referential integrity: both its keys were
validated against the current state. -/
theorem createTask_integrity {now : Nat} {f : TaskFields} {db db' : DB}
    (h : createTask now f db = .ok db') (hI : RefIntegrity db) :
    RefIntegrity db' := by
  unfold createTask at h
  split at h
  · exact Except.noConfusion h
  split at h
  · exact Except.noConfusion h
  rename_i hlist
  split at h
  · exact Except.noConfusion h
  rename_i hass
  rw [not_not] at hlist hass
  rw [← Except.ok.inj h]
  exact
    { taskList_user := hI.taskList_user
      task_taskList := fun t ht => by
        rcases mem_append_singleton ht with h' | h'
        · exact hI.task_taskList t h'
        · rw [h']; exact hlist
      task_assigned := fun t ht u hu => by
        rcases mem_append_singleton ht with h' | h'
        · exact hI.task_assigned t h' u hu
        · rw [h'] at hu
          simp only [saveNew] at hu
          unfold optExistsId at hass
          rw [hu] at hass
          simpa using hass
      assignment_room := hI.assignment_room
      assignment_user := hI.assignment_user
      check_room := hI.check_room
      check_task := fun c hc => existsId_append _ _ _ (hI.check_task c hc)
      check_staff := hI.check_staff
      checkImage_check := hI.checkImage_check
      contact_room := hI.contact_room
      roomImage_room := hI.roomImage_room
      access_user := hI.access_user
      access_room := hI.access_room }

/-- Creating a room preserves referential integrity: the room table only
grows. -/
theorem createRoom_integrity {now : Nat} {f : RoomFields} {db db' : DB}
    (h : createRoom now f db = .ok db') (hI : RefIntegrity db) :
    RefIntegrity db' := by
  unfold createRoom at h
  rw [← Except.ok.inj h]
  exact
    { taskList_user := hI.taskList_user
      task_taskList := hI.task_taskList
      task_assigned := hI.task_assigned
      assignment_room := fun a ha =>
        existsId_append _ _ _ (hI.assignment_room a ha)
      assignment_user := hI.assignment_user
      check_room := fun c hc => existsId_append _ _ _ (hI.check_room c hc)
      check_task := hI.check_task
      check_staff := hI.check_staff
      checkImage_check := hI.checkImage_check
      contact_room := fun c hc => existsId_append _ _ _ (hI.contact_room c hc)
      roomImage_room := fun i hi =>
        existsId_append _ _ _ (hI.roomImage_room i hi)
      access_user := hI.access_user
      access_room := fun p hp => existsId_append _ _ _ (hI.access_room p hp) }

/-- Creating a room assignment preserves referential integrity. -/
theorem createRoomAssignment_integrity {now : Nat} {f : RoomAssignmentFields}
    {db db' : DB} (h : createRoomAssignment now f db = .ok db')
    (hI : RefIntegrity db) : RefIntegrity db' := by
  unfold createRoomAssignment at h
  split at h
  · exact Except.noConfusion h
  rename_i hfk
  rw [not_not, Bool.and_eq_true] at hfk
  rw [← Except.ok.inj h]
  exact
    { taskList_user := hI.taskList_user
      task_taskList := hI.task_taskList
      task_assigned := hI.task_assigned
      assignment_room := fun a ha => by
        rcases mem_append_singleton ha with h' | h'
        · exact hI.assignment_room a h'
        · rw [h']; exact hfk.1
      assignment_user := fun a ha => by
        rcases mem_append_singleton ha with h' | h'
        · exact hI.assignment_user a h'
        · rw [h']; exact hfk.2
      check_room := hI.check_room
      check_task := hI.check_task
      check_staff := hI.check_staff
      checkImage_check := hI.checkImage_check
      contact_room := hI.contact_room
      roomImage_room := hI.roomImage_room
      access_user := hI.access_user
      access_room := hI.access_room }

/-- Creating a room check preserves referential integrity. -/
theorem createRoomCheck_integrity {now : Nat} {f : RoomCheckFields}
    {db db' : DB} (h : createRoomCheck now f db = .ok db')
    (hI : RefIntegrity db) : RefIntegrity db' := by
  unfold createRoomCheck at h
  split at h
  · exact Except.noConfusion h
  rename_i hfk
  rw [not_not, Bool.and_eq_true, Bool.and_eq_true] at hfk
  rw [← Except.ok.inj h]
  exact
    { taskList_user := hI.taskList_user
      task_taskList := hI.task_taskList
      task_assigned := hI.task_assigned
      assignment_room := hI.assignment_room
      assignment_user := hI.assignment_user
      check_room := fun c hc => by
        rcases mem_append_singleton hc with h' | h'
        · exact hI.check_room c h'
        · rw [h']; exact hfk.1.1
      check_task := fun c hc => by
        rcases mem_append_singleton hc with h' | h'
        · exact hI.check_task c h'
        · rw [h']; exact hfk.1.2
      check_staff := fun c hc => by
        rcases mem_append_singleton hc with h' | h'
        · exact hI.check_staff c h'
        · rw [h']; exact hfk.2
      checkImage_check := fun i hi =>
        existsId_append _ _ _ (hI.checkImage_check i hi)
      contact_room := hI.contact_room
      roomImage_room := hI.roomImage_room
      access_user := hI.access_user
      access_room := hI.access_room }

/-- Creating a room check image preserves referential integrity. -/
theorem createRoomCheckImage_integrity {now : Nat} {f : RoomCheckImageFields}
    {db db' : DB} (h : createRoomCheckImage now f db = .ok db')
    (hI : RefIntegrity db) : RefIntegrity db' := by
  unfold createRoomCheckImage at h
  split at h
  · exact Except.noConfusion h
  rename_i hfk
  rw [not_not] at hfk
  rw [← Except.ok.inj h]
  exact
    { taskList_user := hI.taskList_user
      task_taskList := hI.task_taskList
      task_assigned := hI.task_assigned
      assignment_room := hI.assignment_room
      assignment_user := hI.assignment_user
      check_room := hI.check_room
      check_task := hI.check_task
      check_staff := hI.check_staff
      checkImage_check := fun i hi => by
        rcases mem_append_singleton hi with h' | h'
        · exact hI.checkImage_check i h'
        · rw [h']; exact hfk
      contact_room := hI.contact_room
      roomImage_room := hI.roomImage_room
      access_user := hI.access_user
      access_room := hI.access_room }

/-- Creating a contact attempt preserves referential integrity. -/
theorem createContactAttempt_integrity {now : Nat} {f : ContactAttemptFields}
    {db db' : DB} (h : createContactAttempt now f db = .ok db')
    (hI : RefIntegrity db) : RefIntegrity db' := by
  unfold createContactAttempt at h
  split at h
  · exact Except.noConfusion h
  rename_i hfk
  rw [not_not] at hfk
  rw [← Except.ok.inj h]
  exact
    { taskList_user := hI.taskList_user
      task_taskList := hI.task_taskList
      task_assigned := hI.task_assigned
      assignment_room := hI.assignment_room
      assignment_user := hI.assignment_user
      check_room := hI.check_room
      check_task := hI.check_task
      check_staff := hI.check_staff
      checkImage_check := hI.checkImage_check
      contact_room := fun c hc => by
        rcases mem_append_singleton hc with h' | h'
        · exact hI.contact_room c h'
        · rw [h']; exact hfk
      roomImage_room := hI.roomImage_room
      access_user := hI.access_user
      access_room := hI.access_room }

/-- Creating a room image preserves referential integrity. -/
theorem createRoomImage_integrity {now : Nat} {f : RoomImageFields}
    {db db' : DB} (h : createRoomImage now f db = .ok db')
    (hI : RefIntegrity db) : RefIntegrity db' := by
  unfold createRoomImage at h
  split at h
  · exact Except.noConfusion h
  split at h
  · exact Except.noConfusion h
  rename_i hfk
  rw [not_not] at hfk
  rw [← Except.ok.inj h]
  exact
    { taskList_user := hI.taskList_user
      task_taskList := hI.task_taskList
      task_assigned := hI.task_assigned
      assignment_room := hI.assignment_room
      assignment_user := hI.assignment_user
      check_room := hI.check_room
      check_task := hI.check_task
      check_staff := hI.check_staff
      checkImage_check := hI.checkImage_check
      contact_room := hI.contact_room
      roomImage_room := fun i hi => by
        rcases mem_append_singleton hi with h' | h'
        · exact hI.roomImage_room i h'
        · rw [h']; exact hfk
      access_user := hI.access_user
      access_room := hI.access_room }

/-- Adding a `rooms_access` association preserves referential integrity. -/
theorem addRoomAccess_integrity {uid rid : Nat} {db db' : DB}
    (h : addRoomAccess uid rid db = .ok db') (hI : RefIntegrity db) :
    RefIntegrity db' := by
  unfold addRoomAccess at h
  split at h
  · exact Except.noConfusion h
  rename_i hfk
  rw [not_not, Bool.and_eq_true] at hfk
  rw [← Except.ok.inj h]
  exact
    { taskList_user := hI.taskList_user
      task_taskList := hI.task_taskList
      task_assigned := hI.task_assigned
      assignment_room := hI.assignment_room
      assignment_user := hI.assignment_user
      check_room := hI.check_room
      check_task := hI.check_task
      check_staff := hI.check_staff
      checkImage_check := hI.checkImage_check
      contact_room := hI.contact_room
      roomImage_room := hI.roomImage_room
      access_user := fun p hp => by
        rcases mem_append_singleton hp with h' | h'
        · exact hI.access_user p h'
        · rw [h']; exact hfk.1
      access_room := fun p hp => by
        rcases mem_append_singleton hp with h' | h'
        · exact hI.access_room p h'
        · rw [h']; exact hfk.2 }

/-- Updating a user preserves referential integrity: primary keys are
kept, so references into the user table still resolve. -/
theorem updateUser_integrity {now i : Nat} {f : UserFields} {db db' : DB}
    (h : updateUser now i f db = .ok db') (hI : RefIntegrity db) :
    RefIntegrity db' := by
  unfold updateUser at h
  split at h
  · exact Except.noConfusion h
  split at h
  · exact Except.noConfusion h
  split at h
  · exact Except.noConfusion h
  split at h
  · exact Except.noConfusion h
  rw [← Except.ok.inj h]
  exact
    { taskList_user := fun l hl => by
        rw [existsId_updateTable]; exact hI.taskList_user l hl
      task_taskList := hI.task_taskList
      task_assigned := fun t ht u hu => by
        rw [existsId_updateTable]; exact hI.task_assigned t ht u hu
      assignment_room := hI.assignment_room
      assignment_user := fun a ha => by
        rw [existsId_updateTable]; exact hI.assignment_user a ha
      check_room := hI.check_room
      check_task := hI.check_task
      check_staff := fun c hc => by
        rw [existsId_updateTable]; exact hI.check_staff c hc
      checkImage_check := hI.checkImage_check
      contact_room := hI.contact_room
      roomImage_room := hI.roomImage_room
      access_user := fun p hp => by
        rw [existsId_updateTable]; exact hI.access_user p hp
      access_room := hI.access_room }

/-- Updating a task list preserves referential integrity. -/
theorem updateTaskList_integrity {now i : Nat} {f : TaskListFields} {db db' : DB}
    (h : updateTaskList now i f db = .ok db') (hI : RefIntegrity db) :
    RefIntegrity db' := by
  unfold updateTaskList at h
  split at h
  · exact Except.noConfusion h
  rename_i hfk
  rw [not_not] at hfk
  rw [← Except.ok.inj h]
  exact
    { taskList_user := fun l hl => by
        rcases mem_updateTable hl with h' | h'
        · exact hI.taskList_user l h'
        · rw [h']; exact hfk
      task_taskList := fun t ht => by
        rw [existsId_updateTable]; exact hI.task_taskList t ht
      task_assigned := hI.task_assigned
      assignment_room := hI.assignment_room
      assignment_user := hI.assignment_user
      check_room := hI.check_room
      check_task := hI.check_task
      check_staff := hI.check_staff
      checkImage_check := hI.checkImage_check
      contact_room := hI.contact_room
      roomImage_room := hI.roomImage_room
      access_user := hI.access_user
      access_room := hI.access_room }

/-- Updating a task preserves referential integrity. -/
theorem updateTask_integrity {now i : Nat} {f : TaskFields} {db db' : DB}
    (h : updateTask now i f db = .ok db') (hI : RefIntegrity db) :
    RefIntegrity db' := by
  unfold updateTask at h
  split at h
  · exact Except.noConfusion h
  split at h
  · exact Except.noConfusion h
  rename_i hlist
  split at h
  · exact Except.noConfusion h
  rename_i hass
  rw [not_not] at hlist hass
  rw [← Except.ok.inj h]
  exact
    { taskList_user := hI.taskList_user
      task_taskList := fun t ht => by
        rcases mem_updateTable ht with h' | h'
        · exact hI.task_taskList t h'
        · rw [h']; exact hlist
      task_assigned := fun t ht u hu => by
        rcases mem_updateTable ht with h' | h'
        · exact hI.task_assigned t h' u hu
        · rw [h'] at hu
          unfold optExistsId at hass
          rw [hu] at hass
          simpa using hass
      assignment_room := hI.assignment_room
      assignment_user := hI.assignment_user
      check_room := hI.check_room
      check_task := fun c hc => by
        rw [existsId_updateTable]; exact hI.check_task c hc
      check_staff := hI.check_staff
      checkImage_check := hI.checkImage_check
      contact_room := hI.contact_room
      roomImage_room := hI.roomImage_room
      access_user := hI.access_user
      access_room := hI.access_room }

/-- Updating a room preserves referential integrity. -/
theorem updateRoom_integrity {now i : Nat} {f : RoomFields} {db db' : DB}
    (h : updateRoom now i f db = .ok db') (hI : RefIntegrity db) :
    RefIntegrity db' := by
  unfold updateRoom at h
  rw [← Except.ok.inj h]
  exact
    { taskList_user := hI.taskList_user
      task_taskList := hI.task_taskList
      task_assigned := hI.task_assigned
      assignment_room := fun a ha => by
        rw [existsId_updateTable]; exact hI.assignment_room a ha
      assignment_user := hI.assignment_user
      check_room := fun c hc => by
        rw [existsId_updateTable]; exact hI.check_room c hc
      check_task := hI.check_task
      check_staff := hI.check_staff
      checkImage_check := hI.checkImage_check
      contact_room := fun c hc => by
        rw [existsId_updateTable]; exact hI.contact_room c hc
      roomImage_room := fun i hi => by
        rw [existsId_updateTable]; exact hI.roomImage_room i hi
      access_user := hI.access_user
      access_room := fun p hp => by
        rw [existsId_updateTable]; exact hI.access_room p hp }

/-- Updating a room assignment preserves referential integrity. -/
theorem updateRoomAssignment_integrity {now i : Nat} {f : RoomAssignmentFields}
    {db db' : DB} (h : updateRoomAssignment now i f db = .ok db')
    (hI : RefIntegrity db) : RefIntegrity db' := by
  unfold updateRoomAssignment at h
  split at h
  · exact Except.noConfusion h
  rename_i hfk
  rw [not_not, Bool.and_eq_true] at hfk
  rw [← Except.ok.inj h]
  exact
    { taskList_user := hI.taskList_user
      task_taskList := hI.task_taskList
      task_assigned := hI.task_assigned
      assignment_room := fun a ha => by
        rcases mem_updateTable ha with h' | h'
        · exact hI.assignment_room a h'
        · rw [h']; exact hfk.1
      assignment_user := fun a ha => by
        rcases mem_updateTable ha with h' | h'
        · exact hI.assignment_user a h'
        · rw [h']; exact hfk.2
      check_room := hI.check_room
      check_task := hI.check_task
      check_staff := hI.check_staff
      checkImage_check := hI.checkImage_check
      contact_room := hI.contact_room
      roomImage_room := hI.roomImage_room
      access_user := hI.access_user
      access_room := hI.access_room }

/-- Updating a room check preserves referential integrity. -/
theorem updateRoomCheck_integrity {now i : Nat} {f : RoomCheckFields}
    {db db' : DB} (h : updateRoomCheck now i f db = .ok db')
    (hI : RefIntegrity db) : RefIntegrity db' := by
  unfold updateRoomCheck at h
  split at h
  · exact Except.noConfusion h
  rename_i hfk
  rw [not_not, Bool.and_eq_true, Bool.and_eq_true] at hfk
  rw [← Except.ok.inj h]
  exact
    { taskList_user := hI.taskList_user
      task_taskList := hI.task_taskList
      task_assigned := hI.task_assigned
      assignment_room := hI.assignment_room
      assignment_user := hI.assignment_user
      check_room := fun c hc => by
        rcases mem_updateTable hc with h' | h'
        · exact hI.check_room c h'
        · rw [h']; exact hfk.1.1
      check_task := fun c hc => by
        rcases mem_updateTable hc with h' | h'
        · exact hI.check_task c h'
        · rw [h']; exact hfk.1.2
      check_staff := fun c hc => by
        rcases mem_updateTable hc with h' | h'
        · exact hI.check_staff c h'
        · rw [h']; exact hfk.2
      checkImage_check := fun i hi => by
        rw [existsId_updateTable]; exact hI.checkImage_check i hi
      contact_room := hI.contact_room
      roomImage_room := hI.roomImage_room
      access_user := hI.access_user
      access_room := hI.access_room }

/-- Updating a room check image preserves referential integrity. -/
theorem updateRoomCheckImage_integrity {now i : Nat} {f : RoomCheckImageFields}
    {db db' : DB} (h : updateRoomCheckImage now i f db = .ok db')
    (hI : RefIntegrity db) : RefIntegrity db' := by
  unfold updateRoomCheckImage at h
  split at h
  · exact Except.noConfusion h
  rename_i hfk
  rw [not_not] at hfk
  rw [← Except.ok.inj h]
  exact
    { taskList_user := hI.taskList_user
      task_taskList := hI.task_taskList
      task_assigned := hI.task_assigned
      assignment_room := hI.assignment_room
      assignment_user := hI.assignment_user
      check_room := hI.check_room
      check_task := hI.check_task
      check_staff := hI.check_staff
      checkImage_check := fun i hi => by
        rcases mem_updateTable hi with h' | h'
        · exact hI.checkImage_check i h'
        · rw [h']; exact hfk
      contact_room := hI.contact_room
      roomImage_room := hI.roomImage_room
      access_user := hI.access_user
      access_room := hI.access_room }

/-- Updating a contact attempt preserves referential integrity. -/
theorem updateContactAttempt_integrity {now i : Nat} {f : ContactAttemptFields}
    {db db' : DB} (h : updateContactAttempt now i f db = .ok db')
    (hI : RefIntegrity db) : RefIntegrity db' := by
  unfold updateContactAttempt at h
  split at h
  · exact Except.noConfusion h
  rename_i hfk
  rw [not_not] at hfk
  rw [← Except.ok.inj h]
  exact
    { taskList_user := hI.taskList_user
      task_taskList := hI.task_taskList
      task_assigned := hI.task_assigned
      assignment_room := hI.assignment_room
      assignment_user := hI.assignment_user
      check_room := hI.check_room
      check_task := hI.check_task
      check_staff := hI.check_staff
      checkImage_check := hI.checkImage_check
      contact_room := fun c hc => by
        rcases mem_updateTable hc with h' | h'
        · exact hI.contact_room c h'
        · rw [h']; exact hfk
      roomImage_room := hI.roomImage_room
      access_user := hI.access_user
      access_room := hI.access_room }

/-- Updating a room image preserves referential integrity. -/
theorem updateRoomImage_integrity {now i : Nat} {f : RoomImageFields}
    {db db' : DB} (h : updateRoomImage now i f db = .ok db')
    (hI : RefIntegrity db) : RefIntegrity db' := by
  unfold updateRoomImage at h
  split at h
  · exact Except.noConfusion h
  split at h
  · exact Except.noConfusion h
  rename_i hfk
  rw [not_not] at hfk
  rw [← Except.ok.inj h]
  exact
    { taskList_user := hI.taskList_user
      task_taskList := hI.task_taskList
      task_assigned := hI.task_assigned
      assignment_room := hI.assignment_room
      assignment_user := hI.assignment_user
      check_room := hI.check_room
      check_task := hI.check_task
      check_staff := hI.check_staff
      checkImage_check := hI.checkImage_check
      contact_room := hI.contact_room
      roomImage_room := fun i hi => by
        rcases mem_updateTable hi with h' | h'
        · exact hI.roomImage_room i h'
        · rw [h']; exact hfk
      access_user := hI.access_user
      access_room := hI.access_room }

/-- A key list that does not contain a value has no member equal to it. -/
theorem contains_eq_false_iff {l : List Nat} {x : Nat} :
    l.contains x = false ↔ x ∉ l := by
  rw [← Bool.not_eq_true]
  have hiff : l.contains x = true ↔ x ∈ l := by simp
  exact not_congr hiff

/-- If a row's key avoids the collector's dead-key list, the row did not
match the collector's predicate. -/
theorem not_dead_of_not_contains {α : Type} {tbl : List (Rec α)}
    {p : Rec α → Bool} {j : Nat}
    (hnc : ((tbl.filter p).map (fun r => r.id)).contains j = false)
    {r : Rec α} (hr : r ∈ tbl) (hid : r.id = j) : p r = false := by
  by_contra hp
  rw [Bool.not_eq_false] at hp
  exact contains_eq_false_iff.1 hnc
    (List.mem_map.2 ⟨r, List.mem_filter.2 ⟨hr, hp⟩, hid⟩)

/-- A parent surviving a deletion filter still answers the lookup. -/
theorem existsId_filter_of {α : Type} {tbl : List (Rec α)} {p : Rec α → Bool}
    {r : Rec α} {j : Nat} (hr : r ∈ tbl) (hid : r.id = j) (hp : p r = true) :
    existsId (tbl.filter p) j = true :=
  existsId_intro (List.mem_filter.2 ⟨hr, hp⟩) hid

/-- Deleting a room assignment preserves referential integrity: nothing
references the assignment table. -/
theorem deleteRoomAssignment_integrity {aid : Nat} {db : DB}
    (hI : RefIntegrity db) : RefIntegrity (deleteRoomAssignment aid db) :=
  { taskList_user := hI.taskList_user
    task_taskList := hI.task_taskList
    task_assigned := hI.task_assigned
    assignment_room := fun a ha => hI.assignment_room a (List.mem_filter.1 ha).1
    assignment_user := fun a ha => hI.assignment_user a (List.mem_filter.1 ha).1
    check_room := hI.check_room
    check_task := hI.check_task
    check_staff := hI.check_staff
    checkImage_check := hI.checkImage_check
    contact_room := hI.contact_room
    roomImage_room := hI.roomImage_room
    access_user := hI.access_user
    access_room := hI.access_room }

/-- Deleting a room check image preserves referential integrity. -/
theorem deleteRoomCheckImage_integrity {iid : Nat} {db : DB}
    (hI : RefIntegrity db) : RefIntegrity (deleteRoomCheckImage iid db) :=
  { taskList_user := hI.taskList_user
    task_taskList := hI.task_taskList
    task_assigned := hI.task_assigned
    assignment_room := hI.assignment_room
    assignment_user := hI.assignment_user
    check_room := hI.check_room
    check_task := hI.check_task
    check_staff := hI.check_staff
    checkImage_check := fun i hi =>
      hI.checkImage_check i (List.mem_filter.1 hi).1
    contact_room := hI.contact_room
    roomImage_room := hI.roomImage_room
    access_user := hI.access_user
    access_room := hI.access_room }

/-- Deleting a contact attempt preserves referential integrity. -/
theorem deleteContactAttempt_integrity {cid : Nat} {db : DB}
    (hI : RefIntegrity db) : RefIntegrity (deleteContactAttempt cid db) :=
  { taskList_user := hI.taskList_user
    task_taskList := hI.task_taskList
    task_assigned := hI.task_assigned
    assignment_room := hI.assignment_room
    assignment_user := hI.assignment_user
    check_room := hI.check_room
    check_task := hI.check_task
    check_staff := hI.check_staff
    checkImage_check := hI.checkImage_check
    contact_room := fun c hc => hI.contact_room c (List.mem_filter.1 hc).1
    roomImage_room := hI.roomImage_room
    access_user := hI.access_user
    access_room := hI.access_room }

/-- Deleting a room image preserves referential integrity. -/
theorem deleteRoomImage_integrity {iid : Nat} {db : DB}
    (hI : RefIntegrity db) : RefIntegrity (deleteRoomImage iid db) :=
  { taskList_user := hI.taskList_user
    task_taskList := hI.task_taskList
    task_assigned := hI.task_assigned
    assignment_room := hI.assignment_room
    assignment_user := hI.assignment_user
    check_room := hI.check_room
    check_task := hI.check_task
    check_staff := hI.check_staff
    checkImage_check := hI.checkImage_check
    contact_room := hI.contact_room
    roomImage_room := fun i hi => hI.roomImage_room i (List.mem_filter.1 hi).1
    access_user := hI.access_user
    access_room := hI.access_room }

/-- Removing a `rooms_access` association preserves referential
integrity. -/
theorem removeRoomAccess_integrity {uid rid : Nat} {db : DB}
    (hI : RefIntegrity db) : RefIntegrity (removeRoomAccess uid rid db) :=
  { taskList_user := hI.taskList_user
    task_taskList := hI.task_taskList
    task_assigned := hI.task_assigned
    assignment_room := hI.assignment_room
    assignment_user := hI.assignment_user
    check_room := hI.check_room
    check_task := hI.check_task
    check_staff := hI.check_staff
    checkImage_check := hI.checkImage_check
    contact_room := hI.contact_room
    roomImage_room := hI.roomImage_room
    access_user := fun p hp => hI.access_user p (List.mem_filter.1 hp).1
    access_room := fun p hp => hI.access_room p (List.mem_filter.1 hp).1 }

/-- Deleting a room check preserves referential integrity: its images are
deleted with it. -/
theorem deleteRoomCheck_integrity {cid : Nat} {db : DB}
    (hI : RefIntegrity db) : RefIntegrity (deleteRoomCheck cid db) :=
  { taskList_user := hI.taskList_user
    task_taskList := hI.task_taskList
    task_assigned := hI.task_assigned
    assignment_room := hI.assignment_room
    assignment_user := hI.assignment_user
    check_room := fun c hc => hI.check_room c (List.mem_filter.1 hc).1
    check_task := fun c hc => hI.check_task c (List.mem_filter.1 hc).1
    check_staff := fun c hc => hI.check_staff c (List.mem_filter.1 hc).1
    checkImage_check := fun i hi => by
      have h1 := List.mem_filter.1 hi
      have hne : i.fields.room_check ≠ cid := by simpa using h1.2
      exact existsId_filter_ne (hI.checkImage_check i h1.1) hne
    contact_room := hI.contact_room
    roomImage_room := hI.roomImage_room
    access_user := hI.access_user
    access_room := hI.access_room }

/-- Deleting a room preserves referential integrity: every dependent of
the room, including images of its deleted checks, goes with it. -/
theorem deleteRoom_integrity {rid : Nat} {db : DB} (hI : RefIntegrity db) :
    RefIntegrity (deleteRoom rid db) :=
  { taskList_user := hI.taskList_user
    task_taskList := hI.task_taskList
    task_assigned := hI.task_assigned
    assignment_room := fun a ha => by
      have h1 := List.mem_filter.1 ha
      have hne : a.fields.room ≠ rid := by simpa using h1.2
      exact existsId_filter_ne (hI.assignment_room a h1.1) hne
    assignment_user := fun a ha => hI.assignment_user a (List.mem_filter.1 ha).1
    check_room := fun c hc => by
      have h1 := List.mem_filter.1 hc
      have hne : c.fields.room ≠ rid := by simpa using h1.2
      exact existsId_filter_ne (hI.check_room c h1.1) hne
    check_task := fun c hc => hI.check_task c (List.mem_filter.1 hc).1
    check_staff := fun c hc => hI.check_staff c (List.mem_filter.1 hc).1
    checkImage_check := fun i hi => by
      have h1 := List.mem_filter.1 hi
      have hnc := h1.2
      simp only [Bool.not_eq_true'] at hnc
      obtain ⟨c, hc, hcid⟩ := exists_of_existsId (hI.checkImage_check i h1.1)
      have hpf := not_dead_of_not_contains hnc hc hcid
      refine existsId_filter_of hc hcid ?_
      simpa using hpf
    contact_room := fun c hc => by
      have h1 := List.mem_filter.1 hc
      have hne : c.fields.room ≠ rid := by simpa using h1.2
      exact existsId_filter_ne (hI.contact_room c h1.1) hne
    roomImage_room := fun i hi => by
      have h1 := List.mem_filter.1 hi
      have hne : i.fields.room ≠ rid := by simpa using h1.2
      exact existsId_filter_ne (hI.roomImage_room i h1.1) hne
    access_user := fun p hp => hI.access_user p (List.mem_filter.1 hp).1
    access_room := fun p hp => by
      have h1 := List.mem_filter.1 hp
      have hne : p.2 ≠ rid := by simpa using h1.2
      exact existsId_filter_ne (hI.access_room p h1.1) hne }

/-- Deleting a task preserves referential integrity: its checks and their
images go with it. -/
theorem deleteTask_integrity {tid : Nat} {db : DB} (hI : RefIntegrity db) :
    RefIntegrity (deleteTask tid db) :=
  { taskList_user := hI.taskList_user
    task_taskList := fun t ht => hI.task_taskList t (List.mem_filter.1 ht).1
    task_assigned := fun t ht => hI.task_assigned t (List.mem_filter.1 ht).1
    assignment_room := hI.assignment_room
    assignment_user := hI.assignment_user
    check_room := fun c hc => hI.check_room c (List.mem_filter.1 hc).1
    check_task := fun c hc => by
      have h1 := List.mem_filter.1 hc
      have hne : c.fields.task ≠ tid := by simpa using h1.2
      exact existsId_filter_ne (hI.check_task c h1.1) hne
    check_staff := fun c hc => hI.check_staff c (List.mem_filter.1 hc).1
    checkImage_check := fun i hi => by
      have h1 := List.mem_filter.1 hi
      have hnc := h1.2
      simp only [Bool.not_eq_true'] at hnc
      obtain ⟨c, hc, hcid⟩ := exists_of_existsId (hI.checkImage_check i h1.1)
      have hpf := not_dead_of_not_contains hnc hc hcid
      refine existsId_filter_of hc hcid ?_
      simpa using hpf
    contact_room := hI.contact_room
    roomImage_room := hI.roomImage_room
    access_user := hI.access_user
    access_room := hI.access_room }

/-- Deleting a task list preserves referential integrity: its tasks, the
checks of those tasks and their images go with it. -/
theorem deleteTaskList_integrity {lid : Nat} {db : DB} (hI : RefIntegrity db) :
    RefIntegrity (deleteTaskList lid db) :=
  { taskList_user := fun l hl => hI.taskList_user l (List.mem_filter.1 hl).1
    task_taskList := fun t ht => by
      have h1 := List.mem_filter.1 ht
      have hne : t.fields.task_list ≠ lid := by simpa using h1.2
      exact existsId_filter_ne (hI.task_taskList t h1.1) hne
    task_assigned := fun t ht => hI.task_assigned t (List.mem_filter.1 ht).1
    assignment_room := hI.assignment_room
    assignment_user := hI.assignment_user
    check_room := fun c hc => hI.check_room c (List.mem_filter.1 hc).1
    check_task := fun c hc => by
      have h1 := List.mem_filter.1 hc
      have hnc := h1.2
      simp only [Bool.not_eq_true'] at hnc
      obtain ⟨t0, ht0, htid⟩ := exists_of_existsId (hI.check_task c h1.1)
      have hpf := not_dead_of_not_contains hnc ht0 htid
      refine existsId_filter_of ht0 htid ?_
      simpa using hpf
    check_staff := fun c hc => hI.check_staff c (List.mem_filter.1 hc).1
    checkImage_check := fun i hi => by
      have h1 := List.mem_filter.1 hi
      have hnc := h1.2
      simp only [Bool.not_eq_true'] at hnc
      obtain ⟨c, hc, hcid⟩ := exists_of_existsId (hI.checkImage_check i h1.1)
      have hpf := not_dead_of_not_contains hnc hc hcid
      refine existsId_filter_of hc hcid ?_
      simp only [hpf, Bool.not_false]
    contact_room := hI.contact_room
    roomImage_room := hI.roomImage_room
    access_user := hI.access_user
    access_room := hI.access_room }

/-- Deleting a user preserves referential integrity: the user's lists,
their tasks, the dependent checks and images all go, and surviving tasks
keep a resolvable or nulled `assigned_to`. -/
theorem deleteUser_integrity {uid : Nat} {db : DB} (hI : RefIntegrity db) :
    RefIntegrity (deleteUser uid db) :=
  { taskList_user := fun l hl => by
      have h1 := List.mem_filter.1 hl
      have hne : l.fields.user ≠ uid := by simpa using h1.2
      exact existsId_filter_ne (hI.taskList_user l h1.1) hne
    task_taskList := fun t ht => by
      obtain ⟨t0, ht0f, hmap⟩ := List.mem_map.1 ht
      have h1 := List.mem_filter.1 ht0f
      have hnc := h1.2
      simp only [Bool.not_eq_true'] at hnc
      have htl : t.fields.task_list = t0.fields.task_list := by
        rw [← hmap]; split <;> rfl
      obtain ⟨l0, hl0, hlid⟩ := exists_of_existsId (hI.task_taskList t0 h1.1)
      have hpf := not_dead_of_not_contains hnc hl0 hlid
      rw [htl]
      refine existsId_filter_of hl0 hlid ?_
      simpa using hpf
    task_assigned := fun t ht u hu => by
      obtain ⟨t0, ht0f, hmap⟩ := List.mem_map.1 ht
      have h1 := List.mem_filter.1 ht0f
      by_cases c0 : (t0.fields.assigned_to == some uid) = true
      · rw [← hmap] at hu
        simp [c0] at hu
      · rw [← hmap] at hu
        simp [c0] at hu
        have hne : u ≠ uid := by
          intro he
          rw [he] at hu
          simp [hu] at c0
        exact existsId_filter_ne (hI.task_assigned t0 h1.1 u hu) hne
    assignment_room := fun a ha => hI.assignment_room a (List.mem_filter.1 ha).1
    assignment_user := fun a ha => by
      have h1 := List.mem_filter.1 ha
      have hne : a.fields.user ≠ uid := by simpa using h1.2
      exact existsId_filter_ne (hI.assignment_user a h1.1) hne
    check_room := fun c hc => hI.check_room c (List.mem_filter.1 hc).1
    check_task := fun c hc => by
      have h1 := List.mem_filter.1 hc
      have hsplit := h1.2
      simp only [Bool.not_eq_true', Bool.or_eq_false_iff] at hsplit
      obtain ⟨t0, ht0, htid⟩ := exists_of_existsId (hI.check_task c h1.1)
      have hpf := not_dead_of_not_contains hsplit.2 ht0 htid
      refine existsId_intro
        (List.mem_map.2 ⟨t0, List.mem_filter.2 ⟨ht0, ?_⟩, rfl⟩) ?_
      · simp only [hpf, Bool.not_false]
      · split <;> exact htid
    check_staff := fun c hc => by
      have h1 := List.mem_filter.1 hc
      have hsplit := h1.2
      simp only [Bool.not_eq_true', Bool.or_eq_false_iff] at hsplit
      have hne : c.fields.student_staff ≠ uid := by simpa using hsplit.1
      exact existsId_filter_ne (hI.check_staff c h1.1) hne
    checkImage_check := fun i hi => by
      have h1 := List.mem_filter.1 hi
      have hnc := h1.2
      simp only [Bool.not_eq_true'] at hnc
      obtain ⟨c0, hc0, hcid⟩ := exists_of_existsId (hI.checkImage_check i h1.1)
      have hpf := not_dead_of_not_contains hnc hc0 hcid
      refine existsId_filter_of hc0 hcid ?_
      simp only [hpf, Bool.not_false]
    contact_room := hI.contact_room
    roomImage_room := hI.roomImage_room
    access_user := fun p hp => by
      have h1 := List.mem_filter.1 hp
      have hne : p.1 ≠ uid := by simpa using h1.2
      exact existsId_filter_ne (hI.access_user p h1.1) hne
    access_room := fun p hp => hI.access_room p (List.mem_filter.1 hp).1 }

/-- One database write: any create, update or delete operation of the
schema, at any clock value and with any arguments (failed writes change
nothing and therefore take no step). -/
inductive Step : DB → DB → Prop where
  | createUser_step (now : Nat) (f : UserFields) (db db' : DB) :
      createUser now f db = .ok db' → Step db db'
  | createTaskList_step (now : Nat) (f : TaskListFields) (db db' : DB) :
      createTaskList now f db = .ok db' → Step db db'
  | createTask_step (now : Nat) (f : TaskFields) (db db' : DB) :
      createTask now f db = .ok db' → Step db db'
  | createRoom_step (now : Nat) (f : RoomFields) (db db' : DB) :
      createRoom now f db = .ok db' → Step db db'
  | createRoomAssignment_step (now : Nat) (f : RoomAssignmentFields) (db db' : DB) :
      createRoomAssignment now f db = .ok db' → Step db db'
  | createRoomCheck_step (now : Nat) (f : RoomCheckFields) (db db' : DB) :
      createRoomCheck now f db = .ok db' → Step db db'
  | createRoomCheckImage_step (now : Nat) (f : RoomCheckImageFields) (db db' : DB) :
      createRoomCheckImage now f db = .ok db' → Step db db'
  | createContactAttempt_step (now : Nat) (f : ContactAttemptFields) (db db' : DB) :
      createContactAttempt now f db = .ok db' → Step db db'
  | createRoomImage_step (now : Nat) (f : RoomImageFields) (db db' : DB) :
      createRoomImage now f db = .ok db' → Step db db'
  | addRoomAccess_step (uid rid : Nat) (db db' : DB) :
      addRoomAccess uid rid db = .ok db' → Step db db'
  | updateUser_step (now i : Nat) (f : UserFields) (db db' : DB) :
      updateUser now i f db = .ok db' → Step db db'
  | updateTaskList_step (now i : Nat) (f : TaskListFields) (db db' : DB) :
      updateTaskList now i f db = .ok db' → Step db db'
  | updateTask_step (now i : Nat) (f : TaskFields) (db db' : DB) :
      updateTask now i f db = .ok db' → Step db db'
  | updateRoom_step (now i : Nat) (f : RoomFields) (db db' : DB) :
      updateRoom now i f db = .ok db' → Step db db'
  | updateRoomAssignment_step (now i : Nat) (f : RoomAssignmentFields) (db db' : DB) :
      updateRoomAssignment now i f db = .ok db' → Step db db'
  | updateRoomCheck_step (now i : Nat) (f : RoomCheckFields) (db db' : DB) :
      updateRoomCheck now i f db = .ok db' → Step db db'
  | updateRoomCheckImage_step (now i : Nat) (f : RoomCheckImageFields) (db db' : DB) :
      updateRoomCheckImage now i f db = .ok db' → Step db db'
  | updateContactAttempt_step (now i : Nat) (f : ContactAttemptFields) (db db' : DB) :
      updateContactAttempt now i f db = .ok db' → Step db db'
  | updateRoomImage_step (now i : Nat) (f : RoomImageFields) (db db' : DB) :
      updateRoomImage now i f db = .ok db' → Step db db'
  | deleteUser_step (uid : Nat) (db : DB) : Step db (deleteUser uid db)
  | deleteTaskList_step (lid : Nat) (db : DB) : Step db (deleteTaskList lid db)
  | deleteTask_step (tid : Nat) (db : DB) : Step db (deleteTask tid db)
  | deleteRoom_step (rid : Nat) (db : DB) : Step db (deleteRoom rid db)
  | deleteRoomAssignment_step (aid : Nat) (db : DB) :
      Step db (deleteRoomAssignment aid db)
  | deleteRoomCheck_step (cid : Nat) (db : DB) :
      Step db (deleteRoomCheck cid db)
  | deleteRoomCheckImage_step (iid : Nat) (db : DB) :
      Step db (deleteRoomCheckImage iid db)
  | deleteContactAttempt_step (cid : Nat) (db : DB) :
      Step db (deleteContactAttempt cid db)
  | deleteRoomImage_step (iid : Nat) (db : DB) :
      Step db (deleteRoomImage iid db)
  | removeRoomAccess_step (uid rid : Nat) (db : DB) :
      Step db (removeRoomAccess uid rid db)

/-- Databases reachable from the empty database by schema writes. -/
def Reachable (db : DB) : Prop := Relation.ReflTransGen Step emptyDB db

/-- Every single write preserves referential integrity. -/
theorem step_integrity {db db' : DB} (h : Step db db') (hI : RefIntegrity db) :
    RefIntegrity db' := by
  cases h with
  | createUser_step now f _ _ he => exact createUser_integrity he hI
  | createTaskList_step now f _ _ he => exact createTaskList_integrity he hI
  | createTask_step now f _ _ he => exact createTask_integrity he hI
  | createRoom_step now f _ _ he => exact createRoom_integrity he hI
  | createRoomAssignment_step now f _ _ he =>
      exact createRoomAssignment_integrity he hI
  | createRoomCheck_step now f _ _ he => exact createRoomCheck_integrity he hI
  | createRoomCheckImage_step now f _ _ he =>
      exact createRoomCheckImage_integrity he hI
  | createContactAttempt_step now f _ _ he =>
      exact createContactAttempt_integrity he hI
  | createRoomImage_step now f _ _ he => exact createRoomImage_integrity he hI
  | addRoomAccess_step uid rid _ _ he => exact addRoomAccess_integrity he hI
  | updateUser_step now i f _ _ he => exact updateUser_integrity he hI
  | updateTaskList_step now i f _ _ he => exact updateTaskList_integrity he hI
  | updateTask_step now i f _ _ he => exact updateTask_integrity he hI
  | updateRoom_step now i f _ _ he => exact updateRoom_integrity he hI
  | updateRoomAssignment_step now i f _ _ he =>
      exact updateRoomAssignment_integrity he hI
  | updateRoomCheck_step now i f _ _ he => exact updateRoomCheck_integrity he hI
  | updateRoomCheckImage_step now i f _ _ he =>
      exact updateRoomCheckImage_integrity he hI
  | updateContactAttempt_step now i f _ _ he =>
      exact updateContactAttempt_integrity he hI
  | updateRoomImage_step now i f _ _ he => exact updateRoomImage_integrity he hI
  | deleteUser_step uid _ => exact deleteUser_integrity hI
  | deleteTaskList_step lid _ => exact deleteTaskList_integrity hI
  | deleteTask_step tid _ => exact deleteTask_integrity hI
  | deleteRoom_step rid _ => exact deleteRoom_integrity hI
  | deleteRoomAssignment_step aid _ => exact deleteRoomAssignment_integrity hI
  | deleteRoomCheck_step cid _ => exact deleteRoomCheck_integrity hI
  | deleteRoomCheckImage_step iid _ => exact deleteRoomCheckImage_integrity hI
  | deleteContactAttempt_step cid _ => exact deleteContactAttempt_integrity hI
  | deleteRoomImage_step iid _ => exact deleteRoomImage_integrity hI
  | removeRoomAccess_step uid rid _ => exact removeRoomAccess_integrity hI

/-- Every reachable database is referentially intact. -/
theorem reachable_integrity {db : DB} (h : Reachable db) : RefIntegrity db := by
  induction h with
  | refl => exact refIntegrity_empty
  | tail _ hstep ih => exact step_integrity hstep ih

/-- The sample database is referentially intact. -/
theorem refIntegrity_sample : RefIntegrity sampleDB := by
  constructor <;> decide

/-- C6: referential integrity is an invariant: it holds of every database
reachable by create, update and delete operations, each single write
preserves it, and a write naming a non-existent parent cannot succeed —
each create or update of a child row succeeds only when every declared
foreign key resolves in the pre-state. -/
theorem referential_integrity_invariant (now i : Nat) (db : DB) :
    (∀ s, Reachable s → RefIntegrity s) ∧
    (∀ s s', Step s s' → RefIntegrity s → RefIntegrity s') ∧
    (∀ (f : TaskListFields) db', createTaskList now f db = .ok db' ∨
        updateTaskList now i f db = .ok db' →
      existsId db.users f.user = true) ∧
    (∀ (f : TaskFields) db', createTask now f db = .ok db' ∨
        updateTask now i f db = .ok db' →
      existsId db.taskLists f.task_list = true ∧
      optExistsId db.users f.assigned_to = true) ∧
    (∀ (f : RoomAssignmentFields) db', createRoomAssignment now f db = .ok db' ∨
        updateRoomAssignment now i f db = .ok db' →
      existsId db.rooms f.room = true ∧ existsId db.users f.user = true) ∧
    (∀ (f : RoomCheckFields) db', createRoomCheck now f db = .ok db' ∨
        updateRoomCheck now i f db = .ok db' →
      existsId db.rooms f.room = true ∧ existsId db.tasks f.task = true ∧
      existsId db.users f.student_staff = true) ∧
    (∀ (f : RoomCheckImageFields) db', createRoomCheckImage now f db = .ok db' ∨
        updateRoomCheckImage now i f db = .ok db' →
      existsId db.roomChecks f.room_check = true) ∧
    (∀ (f : ContactAttemptFields) db', createContactAttempt now f db = .ok db' ∨
        updateContactAttempt now i f db = .ok db' →
      existsId db.rooms f.room = true) ∧
    (∀ (f : RoomImageFields) db', createRoomImage now f db = .ok db' ∨
        updateRoomImage now i f db = .ok db' →
      existsId db.rooms f.room = true) ∧
    (∀ uid rid db', addRoomAccess uid rid db = .ok db' →
      existsId db.users uid = true ∧ existsId db.rooms rid = true) := by
  refine ⟨fun s hs => reachable_integrity hs,
    fun s s' hstep hI => step_integrity hstep hI, ?_, ?_, ?_, ?_, ?_, ?_, ?_, ?_⟩
  · rintro f db' (h | h)
    · unfold createTaskList at h
      split at h
      · exact Except.noConfusion h
      rename_i hfk
      exact not_not.1 hfk
    · unfold updateTaskList at h
      split at h
      · exact Except.noConfusion h
      rename_i hfk
      exact not_not.1 hfk
  · rintro f db' (h | h)
    · unfold createTask at h
      split at h
      · exact Except.noConfusion h
      split at h
      · exact Except.noConfusion h
      rename_i hlist
      split at h
      · exact Except.noConfusion h
      rename_i hass
      exact ⟨not_not.1 hlist, not_not.1 hass⟩
    · unfold updateTask at h
      split at h
      · exact Except.noConfusion h
      split at h
      · exact Except.noConfusion h
      rename_i hlist
      split at h
      · exact Except.noConfusion h
      rename_i hass
      exact ⟨not_not.1 hlist, not_not.1 hass⟩
  · rintro f db' (h | h)
    · unfold createRoomAssignment at h
      split at h
      · exact Except.noConfusion h
      rename_i hfk
      have h3 := not_not.1 hfk
      rw [Bool.and_eq_true] at h3
      exact h3
    · unfold updateRoomAssignment at h
      split at h
      · exact Except.noConfusion h
      rename_i hfk
      have h3 := not_not.1 hfk
      rw [Bool.and_eq_true] at h3
      exact h3
  · rintro f db' (h | h)
    · unfold createRoomCheck at h
      split at h
      · exact Except.noConfusion h
      rename_i hfk
      have h3 := not_not.1 hfk
      rw [Bool.and_eq_true, Bool.and_eq_true] at h3
      exact ⟨h3.1.1, h3.1.2, h3.2⟩
    · unfold updateRoomCheck at h
      split at h
      · exact Except.noConfusion h
      rename_i hfk
      have h3 := not_not.1 hfk
      rw [Bool.and_eq_true, Bool.and_eq_true] at h3
      exact ⟨h3.1.1, h3.1.2, h3.2⟩
  · rintro f db' (h | h)
    · unfold createRoomCheckImage at h
      split at h
      · exact Except.noConfusion h
      rename_i hfk
      exact not_not.1 hfk
    · unfold updateRoomCheckImage at h
      split at h
      · exact Except.noConfusion h
      rename_i hfk
      exact not_not.1 hfk
  · rintro f db' (h | h)
    · unfold createContactAttempt at h
      split at h
      · exact Except.noConfusion h
      rename_i hfk
      exact not_not.1 hfk
    · unfold updateContactAttempt at h
      split at h
      · exact Except.noConfusion h
      rename_i hfk
      exact not_not.1 hfk
  · rintro f db' (h | h)
    · unfold createRoomImage at h
      split at h
      · exact Except.noConfusion h
      split at h
      · exact Except.noConfusion h
      rename_i hfk
      exact not_not.1 hfk
    · unfold updateRoomImage at h
      split at h
      · exact Except.noConfusion h
      split at h
      · exact Except.noConfusion h
      rename_i hfk
      exact not_not.1 hfk
  · rintro uid rid db' h
    unfold addRoomAccess at h
    split at h
    · exact Except.noConfusion h
    rename_i hfk
    have h3 := not_not.1 hfk
    rw [Bool.and_eq_true] at h3
    exact h3

/-- C6 witness: the empty database is reachable and intact, one concrete
delete step from the intact sample database keeps it intact, and a
concrete successful association write certifies both parents. -/
theorem referential_integrity_invariant_witness :
    RefIntegrity emptyDB ∧
    RefIntegrity (deleteUser 1 sampleDB) ∧
    (existsId sampleDB.users 1 = true ∧ existsId sampleDB.rooms 3 = true) :=
  ⟨(referential_integrity_invariant 0 0 sampleDB).1 emptyDB
      Relation.ReflTransGen.refl,
   (referential_integrity_invariant 0 0 sampleDB).2.1 sampleDB
      (deleteUser 1 sampleDB) (Step.deleteUser_step 1 sampleDB)
      refIntegrity_sample,
   (referential_integrity_invariant 0 0 sampleDB).2.2.2.2.2.2.2.2.2 1 3
      { sampleDB with roomsAccess := sampleDB.roomsAccess ++ [(1, 3)] } rfl⟩

end CollabTasks
